import Mathlib

/-!
Shallow embedding of `featuretools/entityset/serialization.py`.

Modelling conventions:
* pandas `DataFrame`s are lists of named, dtype-tagged columns of `Value`s.
* The filesystem is an association list from absolute paths (lists of
  segments) to nodes; writing conses, lookup takes the first match, so
  later writes shadow earlier ones.  `os.path.abspath` is modelled by
  taking all paths to be already absolute.
* Python dicts are association lists in insertion order.
* The concrete storage engines (`pandas.to_csv` / `read_csv`, parquet,
  pickle) are out-of-scope external collaborators; they are modelled as
  value-preserving codecs, with the csv reader re-inferring dtypes from
  the text (the manifest's recorded dtype map is what restores them).
* Fallible Python code (raised exceptions) returns `Except String`.
-/

namespace FT

/-- A cell value.  Tuples (the "exotic" object-dtype payload the parquet
branch must coerce) are modelled as tuples of integers. -/
inductive Value where
  | vint (n : Int)
  | vstr (s : String)
  | vbool (b : Bool)
  | vtuple (elems : List Int)
deriving DecidableEq, Repr

/-- Python `str()` of a value, used by `astype('unicode')`. -/
def valueToString : Value → String
  | .vint n => toString n
  | .vstr s => s
  | .vbool b => if b then "True" else "False"
  | .vtuple es => "(" ++ String.intercalate ", " (es.map toString) ++ ")"

/-- Association-list lookup with decidable string keys (Python dict access). -/
def alookup {α : Type} (k : String) : List (String × α) → Option α
  | [] => none
  | (k', v) :: rest => if k' = k then some v else alookup k rest

/-- Python `dict.pop(k)`: the value under `k` together with the dict with
that entry removed; `none` models the `KeyError` when `k` is absent. -/
def popKey {α : Type} (k : String) : List (String × α) → Option (α × List (String × α))
  | [] => none
  | (k', v) :: rest =>
      if k' = k then some (v, rest)
      else (popKey k rest).map (fun r => (r.1, (k', v) :: r.2))

/-- One pandas column: name, dtype string and cell values. -/
structure Column where
  name : String
  dtype : String
  values : List Value
deriving DecidableEq, Repr

/-- A pandas DataFrame: an ordered list of columns. -/
structure DataFrame where
  cols : List Column
deriving DecidableEq, Repr

/-- Column labels in order (`df.columns`). -/
def DataFrame.columns (df : DataFrame) : List String :=
  df.cols.map (·.name)

/-- `df[c]` for a single label: the first column with that name. -/
def DataFrame.getCol (df : DataFrame) (c : String) : Option Column :=
  df.cols.find? (fun col => col.name = c)

/-- pandas dtype normalisation: `astype('unicode')`/`astype(str)` yields
dtype `object`; any other target is stored as given. -/
def castDtype (target : String) : String :=
  if target = "unicode" ∨ target = "str" then "object" else target

/-- Value conversion performed by `astype`: casting to a textual dtype
applies `str()` to every cell; other casts keep the cells. -/
def castValues (target : String) (vs : List Value) : List Value :=
  if target = "unicode" ∨ target = "str" then vs.map (fun v => .vstr (valueToString v))
  else vs

/-- `column.astype(target)`. -/
def Column.astype (col : Column) (target : String) : Column :=
  { col with dtype := castDtype target, values := castValues target col.values }

/-- Cast one column per a dtype dict: columns named in the dict are cast
to their mapped dtype, others are left alone. -/
def applyDtypes (m : List (String × String)) (col : Column) : Column :=
  match alookup col.name m with
  | some t => col.astype t
  | none => col

/-- `df.astype(m)` for a dtype dict `m`: every column named in `m` is cast
to its mapped dtype; a key of `m` naming no column is a `KeyError`. -/
def DataFrame.astypeMap (df : DataFrame) (m : List (String × String)) :
    Except String DataFrame :=
  if m.all (fun p => p.1 ∈ df.columns) then
    .ok ⟨df.cols.map (applyDtypes m)⟩
  else .error "KeyError: astype dtype key is not a column"

/-- The sub-frame of the columns whose names are in `keep`, in frame order. -/
def DataFrame.restrict (df : DataFrame) (keep : List String) : DataFrame :=
  ⟨df.cols.filter (fun col => col.name ∈ keep)⟩

/-- The `{column: dtype}` dict of a frame (`df.dtypes.astype(str).to_dict()`). -/
def DataFrame.dtypesDict (df : DataFrame) : List (String × String) :=
  df.cols.map (fun col => (col.name, col.dtype))

/-- Wire-format dtype inference used by the csv reader: the text format
itself stores no dtypes, so the reader guesses from the cells. -/
def inferDtype (vs : List Value) : String :=
  if vs.all (fun v => match v with | .vint _ => true | _ => false) then "int64"
  else if vs.all (fun v => match v with | .vbool _ => true | _ => false) then "bool"
  else "object"

/-- The type field of a serialized variable: a bare string tag, an
object `{value: tag, ...options}`, or JSON `null` (the untyped
descriptor's tag is Python `None`). -/
inductive TypeField where
  | str (tag : String)
  | obj (entries : List (String × Value))
  | null
deriving DecidableEq, Repr

/-- A serialized variable fragment. -/
structure VariableDescription where
  id : String
  type : TypeField
  interesting_values : List Value
deriving DecidableEq, Repr

/-- Absolute filesystem paths, as segment lists. -/
abbrev Path := List String

/-- The `loading_info` block of an entity fragment.  `to_entity_description`
creates it with only `params` and the recorded dtype dict; the
`location`/`type` keys (empty here) are merged in by the manifest writer. -/
structure LoadingInfo where
  location : Path
  type : String
  params : List (String × Value)
  dtypes : List (String × String)
deriving DecidableEq, Repr

/-- A serialized entity fragment. -/
structure EntityDescription where
  id : String
  index : String
  time_index : Option String
  secondary_time_index : List (String × List String)
  last_time_index : Bool
  «variables» : List VariableDescription
  loading_info : LoadingInfo
deriving DecidableEq, Repr

/-- A serialized relationship fragment: `(entity id, variable id)` pairs. -/
structure RelationshipDescription where
  parent : String × String
  child : String × String
deriving DecidableEq, Repr

/-- The manifest (`data_description.json`), plus the `root` key the reader
adds after loading. -/
structure DataDescription where
  entities : List (String × EntityDescription)
  relationships : List RelationshipDescription
  root : Option Path
deriving DecidableEq, Repr

/-- Contents of a file on disk. -/
inductive FileContent where
  | table (df : DataFrame)
  | manifest (d : DataDescription)
deriving DecidableEq, Repr

/-- A filesystem node. -/
inductive Node where
  | file (c : FileContent)
  | dir
deriving DecidableEq, Repr

/-- The filesystem: newest entries first; lookup takes the first match. -/
abbrev Fs := List (Path × Node)

/-- Write (or overwrite) a file. -/
def fsWrite (p : Path) (c : FileContent) (fs : Fs) : Fs :=
  (p, .file c) :: fs

/-- `os.makedirs`. -/
def mkdir (p : Path) (fs : Fs) : Fs :=
  (p, .dir) :: fs

/-- Look up the node at an exact path. -/
def fsLookup (p : Path) : Fs → Option Node
  | [] => none
  | (q, n) :: rest => if q = p then some n else fsLookup p rest

/-- `os.path.exists`: the path is an entry or an ancestor of one. -/
def pathExists (p : Path) (fs : Fs) : Bool :=
  fs.any (fun e => decide (p <+: e.1))

/-- `shutil.rmtree`: drop every entry at or below `p`. -/
def rmtree (p : Path) (fs : Fs) : Fs :=
  fs.filter (fun e => decide (¬ p <+: e.1))

/-!
## Live in-memory model

`Variable` instances in featuretools are instances of classes from the
`variable_types` module, which is outside this file's source.  Modelled
from the spec (§4.1): a descriptor is either a registered class with a
string `type_string` tag, or the designated default/untyped descriptor,
whose tag is Python `None`.  The registry contents are a parameter
(`registry : List String`, the set of registered type strings).
-/

/-- A variable-type descriptor: a registered tag, or the default/untyped
descriptor (registered under key `None`). -/
inductive Descriptor where
  | typed (tag : String)
  | untyped
deriving DecidableEq, Repr

/-- The descriptor's `type_string` (Python `None` for the untyped one). -/
def Descriptor.typeString : Descriptor → Option String
  | .typed t => some t
  | .untyped => none

/-- `VARIABLE_TYPES.get(tag, VARIABLE_TYPES.get(None))` for a string key. -/
def resolveStr (registry : List String) (tag : String) : Descriptor :=
  if tag ∈ registry then .typed tag else .untyped

/-- The same lookup when the key is an arbitrary JSON value (only string
keys can hit a registered entry). -/
def resolveVal (registry : List String) (tag : Value) : Descriptor :=
  match tag with
  | .vstr s => resolveStr registry s
  | _ => .untyped

/-- A live variable: column descriptor attached to an entity. -/
structure Variable where
  id : String
  descriptor : Descriptor
  kwargs : List (String × Value)
  interesting_values : List Value
deriving DecidableEq, Repr

/-- A live entity: identifier, backing table and schema metadata.
`last_time_index` records whether a last-time index exists
(`entity.last_time_index is not None`). -/
structure Entity where
  id : String
  df : DataFrame
  «variables» : List Variable
  index : String
  time_index : Option String
  secondary_time_index : List (String × List String)
  last_time_index : Bool
deriving DecidableEq, Repr

/-- A live relationship, by its `(entity id, variable id)` endpoints. -/
structure Relationship where
  parent : String × String
  child : String × String
deriving DecidableEq, Repr

/-- A live entityset. -/
structure EntitySet where
  entities : List Entity
  relationships : List Relationship
deriving DecidableEq, Repr

/-- `entityset[id]`: find an entity by identifier. -/
def EntitySet.getEntity (es : EntitySet) (id : String) : Option Entity :=
  es.entities.find? (fun e => e.id = id)

/-- `entity[id]`: find a variable by identifier. -/
def Entity.getVariable (e : Entity) (id : String) : Option Variable :=
  e.variables.find? (fun v => v.id = id)

/-!
## Serialization (embedding of `serialization.py`)
-/

/-- `FORMATS = ['csv', 'pickle', 'parquet']`. -/
def FORMATS : List String := ["csv", "pickle", "parquet"]

/-- The `ValueError` message raised for an unsupported format:
`'must be one of the following formats: {}'.format(', '.join(FORMATS))`. -/
def formatsError : String :=
  "must be one of the following formats: " ++ String.intercalate ", " FORMATS

/-- Python `str.lower`, modelled over the characters (`String.toLower`
does not reduce in the kernel). -/
def strLower (s : String) : String := ⟨s.data.map Char.toLower⟩

/-- Modelled from the spec: `Variable.to_data_description` lives in the
out-of-src variable module.  Per §4.1 the type registry "emits
`{type: tag}` when the variable needs no extra construction parameters,
or `{type: {value: tag, ...options}}` when it does"; the untyped
descriptor's tag is `None` (JSON null). -/
def Variable.to_data_description (v : Variable) : VariableDescription :=
  let tagField : String → TypeField := fun t =>
    match v.kwargs with
    | [] => .str t
    | ks => .obj (("value", Value.vstr t) :: ks)
  { id := v.id
    type := match v.descriptor with
            | .typed t => tagField t
            | .untyped => .null
    interesting_values := v.interesting_values }

/-- `to_entity_description(entity)`: the entity fragment, with the dtype
dict restricted to the columns declared as variables (in frame order). -/
def to_entity_description (entity : Entity) : EntityDescription :=
  let varIds := entity.variables.map (·.id)
  let kept := entity.df.cols.filter (fun col => col.name ∈ varIds)
  { id := entity.id
    index := entity.index
    time_index := entity.time_index
    secondary_time_index := entity.secondary_time_index
    last_time_index := entity.last_time_index
    «variables» := entity.variables.map Variable.to_data_description
    loading_info := { location := [], type := "", params := [],
                      dtypes := kept.map (fun col => (col.name, col.dtype)) } }

/-- `to_relationship_description(relationship)`. -/
def to_relationship_description (r : Relationship) : RelationshipDescription :=
  { parent := r.parent, child := r.child }

/-- Modelled from the spec: `EntitySet.to_data_description` is defined on
the out-of-src `EntitySet` class.  Per §6 the manifest maps each entity
id to its fragment (via `to_entity_description`) and lists relationship
fragments (via `to_relationship_description`). -/
def EntitySet.to_data_description (es : EntitySet) : DataDescription :=
  { entities := es.entities.map (fun e => (e.id, to_entity_description e))
    relationships := es.relationships.map to_relationship_description
    root := none }

/-- The partial loading info returned by `write_entity_data`:
`{'location': location, 'type': format, 'params': kwargs}`. -/
structure WrittenInfo where
  location : Path
  type : String
  params : List (String × Value)
deriving DecidableEq, Repr

/-- `loading_info.update(written)`: dict update overwrites the
`location`/`type`/`params` keys and keeps the recorded dtypes. -/
def LoadingInfo.update (li : LoadingInfo) (wi : WrittenInfo) : LoadingInfo :=
  { li with location := wi.location, type := wi.type, params := wi.params }

/-- The data file's basename: `<id>.<format>` with `.<compression>`
appended when a compression option is supplied. -/
def dataBasename (id : String) (format : String) (kwargs : List (String × Value)) :
    String :=
  let basename := id ++ "." ++ format
  match alookup "compression" kwargs with
  | some (.vstr c) => basename ++ "." ++ c
  | _ => basename

/-- The in-place object→text coercion of the parquet branch:
`df[df.select_dtypes('object').columns].astype('unicode')`. -/
def coerceObjectColumns (df : DataFrame) : DataFrame :=
  ⟨df.cols.map (fun col => if col.dtype = "object" then col.astype "unicode" else col)⟩

/-- `write_entity_data(entity, path, format, **kwargs)`.

The result carries the partial loading info, the caller's table as it
stands after the call (the parquet branch mutates `entity.df` in place),
and the updated filesystem.  The storage engines are modelled as
value-preserving (spec §1: external collaborators); the csv branch's
whitelisting of `index`/`encoding` writer options therefore has no
observable effect here. -/
def write_entity_data (entity : Entity) (path : Path) (format : String)
    (kwargs : List (String × Value)) (fs : Fs) :
    Except String (WrittenInfo × DataFrame × Fs) :=
  let format := strLower format
  let location : Path := ["data", dataBasename entity.id format kwargs]
  let file := path ++ location
  if format = "csv" then
    .ok ({ location := location, type := format, params := kwargs },
         entity.df, fsWrite file (.table entity.df) fs)
  else if format = "parquet" then
    let coerced := coerceObjectColumns entity.df
    .ok ({ location := location, type := format, params := kwargs },
         coerced, fsWrite file (.table coerced) fs)
  else if format = "pickle" then
    .ok ({ location := location, type := format, params := kwargs },
         entity.df, fsWrite file (.table entity.df) fs)
  else
    .error formatsError

/-- Merge the loading info returned by the table write into the matching
entity fragment of the manifest
(`description['entities'][entity.id]['loading_info'].update(loading_info)`). -/
def updateLoadingInfo (entities : List (String × EntityDescription))
    (id : String) (wi : WrittenInfo) : List (String × EntityDescription) :=
  match entities with
  | [] => []
  | (k, frag) :: rest =>
      if k = id then (k, { frag with loading_info := frag.loading_info.update wi }) :: rest
      else (k, frag) :: updateLoadingInfo rest id wi

/-- The per-entity loop of `write_data_description`. -/
def writeEntities (entities : List Entity) (path : Path) (format : String)
    (kwargs : List (String × Value)) (description : DataDescription) (fs : Fs) :
    Except String (DataDescription × Fs) :=
  match entities with
  | [] => .ok (description, fs)
  | entity :: rest =>
      match write_entity_data entity path format kwargs fs with
      | .error e => .error e
      | .ok (loading_info, _, fs) =>
          writeEntities rest path format kwargs
            { description with
              entities := updateLoadingInfo description.entities entity.id loading_info }
            fs

/-- `write_data_description(entityset, path, **kwargs)`: destructive reset
of the target tree, directory creation, per-entity table writes, then the
manifest write.  `format` is the keyword consumed by `write_entity_data`;
`kwargs` are the remaining keywords. -/
def write_data_description (entityset : EntitySet) (path : Path) (format : String)
    (kwargs : List (String × Value)) (fs : Fs) : Except String Fs :=
  let fs := if pathExists path fs then rmtree path fs else fs
  let fs := mkdir (path ++ ["data"]) (mkdir path fs)
  let description := entityset.to_data_description
  match writeEntities entityset.entities path format kwargs description fs with
  | .error e => .error e
  | .ok (description, fs) =>
      .ok (fsWrite (path ++ ["data_description.json"]) (.manifest description) fs)

/-!
## Deserialization
-/

/-- The result of `from_variable_description`: the bare descriptor class
when no entity is supplied, otherwise an instantiated `Variable`. -/
inductive VarResult where
  | cls (d : Descriptor)
  | inst (v : Variable)
deriving DecidableEq, Repr

/-- The descriptor either kind of result resolves to. -/
def VarResult.descriptor : VarResult → Descriptor
  | .cls d => d
  | .inst v => v.descriptor

/-- `from_variable_description(description, entity=None)`.

Returns the result together with the caller's fragment as it stands after
the call: `description['type'].pop('value')` mutates the fragment when the
type field is an object.  A missing `value` key is the `KeyError` Python
would raise; a `null` type field is the `AttributeError` of `None.pop`.
The `entity` argument only selects between returning the class and
instantiating it, so it is modelled as `Option Unit`. -/
def from_variable_description (registry : List String)
    (description : VariableDescription) (entity : Option Unit) :
    Except String (VarResult × VariableDescription) :=
  match description.type with
  | .str tag =>
      let «variable» := resolveStr registry tag
      match entity with
      | none => .ok (.cls «variable», description)
      | some _ =>
          .ok (.inst { id := description.id, descriptor := «variable», kwargs := [],
                       interesting_values := description.interesting_values },
               description)
  | .obj entries =>
      match popKey "value" entries with
      | none => .error "KeyError: value"
      | some (tagValue, rest) =>
          let «variable» := resolveVal registry tagValue
          let description' := { description with type := TypeField.obj rest }
          match entity with
          | none => .ok (.cls «variable», description')
          | some _ =>
              .ok (.inst { id := description.id, descriptor := «variable», kwargs := rest,
                           interesting_values := description.interesting_values },
                   description')
  | .null => .error "AttributeError: NoneType has no attribute pop"

/-- `empty_dataframe(description)`: `pd.DataFrame(columns=...)` (object
dtype, no rows) cast to the recorded dtype dict. -/
def empty_dataframe (description : EntityDescription) : Except String DataFrame :=
  let columns := description.variables.map (·.id)
  DataFrame.astypeMap ⟨columns.map (fun c => { name := c, dtype := "object", values := [] })⟩
    description.loading_info.dtypes

/-- The per-format whitelist of reader options in `read_entity_data`. -/
def readParams (format : String) : List String :=
  if format = "csv" then ["compression", "engine", "encoding"]
  else if format = "parquet" then ["engine", "columns"]
  else if format = "pickle" then ["compression"]
  else []

/-- `{key: kwargs[key] for key in params if key in kwargs}`. -/
def subsetParams (params : List String) (kwargs : List (String × Value)) :
    List (String × Value) :=
  params.filterMap (fun key => (alookup key kwargs).map (fun v => (key, v)))

/-- Modelled from the spec: `pd.read_csv` is an external collaborator
(§1).  The text format stores no dtypes, so the reader re-infers each
column's dtype from its cells; the values themselves are preserved. -/
def read_csv (df : DataFrame) (_options : List (String × Value)) : DataFrame :=
  ⟨df.cols.map (fun col => { col with dtype := inferDtype col.values })⟩

/-- Modelled from the spec: `pd.read_parquet`, a dtype-preserving
external collaborator (§1). -/
def read_parquet (df : DataFrame) (_options : List (String × Value)) : DataFrame :=
  df

/-- Modelled from the spec: `pd.read_pickle`, an exact-snapshot external
collaborator (§1). -/
def read_pickle (df : DataFrame) (_options : List (String × Value)) : DataFrame :=
  df

/-- `read_entity_data(description, path)`: dispatch on the recorded format
tag, pass only the whitelisted option subset to the reader, then re-cast
every column to the recorded dtype dict. -/
def read_entity_data (description : EntityDescription) (path : Path) (fs : Fs) :
    Except String DataFrame :=
  let li := description.loading_info
  let file := path ++ li.location
  let kwargs := li.params
  if li.type = "csv" ∨ li.type = "parquet" ∨ li.type = "pickle" then
    match fsLookup file fs with
    | some (.file (.table stored)) =>
        let subset := subsetParams (readParams li.type) kwargs
        let dataframe :=
          if li.type = "csv" then read_csv stored subset
          else if li.type = "parquet" then read_parquet stored subset
          else read_pickle stored subset
        dataframe.astypeMap li.dtypes
    | _ => .error "IOError: no such file"
  else .error formatsError

/-- The dict comprehension
`{variable['id']: from_variable_description(variable) for variable in description['variables']}`. -/
def varTypesFromFragments (registry : List String) :
    List VariableDescription → Except String (List (String × Descriptor))
  | [] => .ok []
  | v :: rest =>
      match from_variable_description registry v none with
      | .error e => .error e
      | .ok (r, _) =>
          match varTypesFromFragments registry rest with
          | .error e => .error e
          | .ok tail => .ok ((v.id, r.descriptor) :: tail)

/-- Modelled from the spec: `entityset.entity_from_dataframe` is the
out-of-src registration collaborator (§6): it registers an entity with
the given table, index, time-index and secondary-time-index metadata into
the collection, building one live `Variable` per supplied variable-type
entry, in order. -/
def EntitySet.entity_from_dataframe (entityset : EntitySet) (id : String)
    (dataframe : DataFrame) (index : String) (time_index : Option String)
    (secondary_time_index : List (String × List String))
    (variable_types : List (String × Descriptor)) : EntitySet :=
  let vars := variable_types.map (fun p =>
    { id := p.1, descriptor := p.2, kwargs := [], interesting_values := [] : Variable })
  { entityset with
    entities := entityset.entities ++
      [{ id := id, df := dataframe, «variables» := vars, index := index,
         time_index := time_index, secondary_time_index := secondary_time_index,
         last_time_index := false }] }

/-- `from_entity_description(description, entityset, path=None)`. -/
def from_entity_description (registry : List String)
    (description : EntityDescription) (entityset : EntitySet)
    (path : Option Path) (fs : Fs) : Except String EntitySet :=
  let readResult := match path with
    | some p => read_entity_data description p fs
    | none => empty_dataframe description
  match readResult with
  | .error e => .error e
  | .ok dataframe =>
      match varTypesFromFragments registry description.variables with
      | .error e => .error e
      | .ok variable_types =>
          .ok (entityset.entity_from_dataframe description.id dataframe
                description.index description.time_index
                description.secondary_time_index variable_types)

/-- `from_relationship_description(description, entityset)`: two-sided
lookup of the endpoints in the now-populated collection; a missing entity
or variable is the `KeyError` of `entityset[entity][variable]`. -/
def from_relationship_description (description : RelationshipDescription)
    (entityset : EntitySet) : Except String Relationship :=
  match entityset.getEntity description.parent.1 with
  | none => .error "KeyError: parent entity"
  | some pe =>
      match pe.getVariable description.parent.2 with
      | none => .error "KeyError: parent variable"
      | some pv =>
          match entityset.getEntity description.child.1 with
          | none => .error "KeyError: child entity"
          | some ce =>
              match ce.getVariable description.child.2 with
              | none => .error "KeyError: child variable"
              | some cv =>
                  .ok { parent := (pe.id, pv.id), child := (ce.id, cv.id) }

/-- `read_data_description(path)`: assert the root exists, load and parse
the manifest, and record the resolved absolute path under `root`. -/
def read_data_description (path : Path) (fs : Fs) : Except String DataDescription :=
  if pathExists path fs then
    match fsLookup (path ++ ["data_description.json"]) fs with
    | some (.file (.manifest description)) => .ok { description with root := some path }
    | _ => .error "IOError: cannot open data_description.json"
  else .error "AssertionError: path does not exist"

/-- The entity phase of the claimed read-back recipe: fold
`from_entity_description` (with the manifest's recorded root as the path)
over the entity fragments, in manifest order. -/
def loadEntities (registry : List String)
    (fragments : List (String × EntityDescription)) (path : Option Path)
    (fs : Fs) (entityset : EntitySet) : Except String EntitySet :=
  match fragments with
  | [] => .ok entityset
  | (_, fragment) :: rest =>
      match from_entity_description registry fragment entityset path fs with
      | .error e => .error e
      | .ok entityset => loadEntities registry rest path fs entityset

/-- The relationship phase of the claimed read-back recipe: resolve each
relationship fragment against the populated collection. -/
def loadRelationships (fragments : List RelationshipDescription)
    (entityset : EntitySet) : Except String (List Relationship) :=
  match fragments with
  | [] => .ok []
  | fragment :: rest =>
      match from_relationship_description fragment entityset with
      | .error e => .error e
      | .ok r =>
          match loadRelationships rest entityset with
          | .error e => .error e
          | .ok tail => .ok (r :: tail)

/-- The full read-back pipeline named by the round-trip claim:
`from_entity_description` for every entity fragment (with the recorded
root as the path), then `from_relationship_description` for every
relationship fragment, assembled into a collection. -/
def description_to_entityset (registry : List String)
    (description : DataDescription) (fs : Fs) : Except String EntitySet :=
  match loadEntities registry description.entities description.root fs ⟨[], []⟩ with
  | .error e => .error e
  | .ok entityset =>
      match loadRelationships description.relationships entityset with
      | .error e => .error e
      | .ok relationships => .ok { entityset with relationships := relationships }

deriving instance DecidableEq for Except

/-!
## Helper lemmas
-/

theorem popKey_eq_none_iff {α : Type} (k : String) (l : List (String × α)) :
    popKey k l = none ↔ alookup k l = none := by
  induction l with
  | nil => simp [popKey, alookup]
  | cons hd tl ih =>
      obtain ⟨k', v⟩ := hd
      by_cases h : k' = k <;> simp [popKey, alookup, h, ih]

theorem popKey_cons_self {α : Type} (k : String) (v : α) (rest : List (String × α)) :
    popKey k ((k, v) :: rest) = some (v, rest) := by
  simp [popKey]

theorem mem_columns_getCol : ∀ (cols : List Column) (c : String),
    c ∈ DataFrame.columns ⟨cols⟩ →
    ∃ col, DataFrame.getCol ⟨cols⟩ c = some col ∧ col.name = c := by
  intro cols
  induction cols with
  | nil => intro c h; simp [DataFrame.columns] at h
  | cons hd tl ih =>
      intro c h
      by_cases hname : hd.name = c
      · exact ⟨hd, by simp [DataFrame.getCol, List.find?, hname], hname⟩
      · have h' : c ∈ DataFrame.columns ⟨tl⟩ := by
          simp [DataFrame.columns] at h ⊢
          rcases h with h | h
          · exact absurd h.symm hname
          · exact h
        obtain ⟨col, hcol, hn⟩ := ih c h'
        refine ⟨col, ?_, hn⟩
        simpa [DataFrame.getCol, List.find?, hname] using hcol

theorem getCol_map_name_preserving (f : Column → Column)
    (hf : ∀ col, (f col).name = col.name) : ∀ (cols : List Column) (c : String),
    DataFrame.getCol ⟨cols.map f⟩ c = (DataFrame.getCol ⟨cols⟩ c).map f := by
  intro cols
  induction cols with
  | nil => intro c; simp [DataFrame.getCol]
  | cons hd tl ih =>
      intro c
      by_cases hname : hd.name = c
      · simp [DataFrame.getCol, List.find?, hf, hname]
      · simpa [DataFrame.getCol, List.find?, hf, hname] using ih c

theorem columns_map_name_preserving (f : Column → Column)
    (hf : ∀ col, (f col).name = col.name) (cols : List Column) :
    DataFrame.columns ⟨cols.map f⟩ = DataFrame.columns ⟨cols⟩ := by
  simp [DataFrame.columns, List.map_map, Function.comp_def, hf]

theorem alookup_of_mem_nodup {α : Type} : ∀ (m : List (String × α)) (c : String) (t : α),
    (c, t) ∈ m → (m.map Prod.fst).Nodup → alookup c m = some t := by
  intro m
  induction m with
  | nil => intro c t h _; simp at h
  | cons hd tl ih =>
      intro c t hmem hnodup
      obtain ⟨k, v⟩ := hd
      simp only [List.map_cons, List.nodup_cons] at hnodup
      rcases List.mem_cons.mp hmem with h | h
      · injection h with h1 h2
        subst h1
        subst h2
        simp [alookup]
      · have hk : k ≠ c := by
          intro hkc
          exact hnodup.1 (hkc ▸ List.mem_map.mpr ⟨(c, t), h, rfl⟩)
        simp [alookup, hk, ih c t h hnodup.2]

theorem applyDtypes_name (m : List (String × String)) (col : Column) :
    (applyDtypes m col).name = col.name := by
  unfold applyDtypes
  cases alookup col.name m <;> simp [Column.astype]

theorem astypeMap_ok (df : DataFrame) (m : List (String × String))
    (hkeys : ∀ q ∈ m, q.1 ∈ df.columns) :
    df.astypeMap m = .ok ⟨df.cols.map (applyDtypes m)⟩ := by
  unfold DataFrame.astypeMap
  rw [if_pos]
  rw [List.all_eq_true]
  intro q hq
  exact decide_eq_true (hkeys q hq)

theorem astypeMap_recast (df : DataFrame) (m : List (String × String))
    (hkeys : ∀ q ∈ m, q.1 ∈ df.columns) (hnodup : (m.map Prod.fst).Nodup) :
    df.astypeMap m = .ok ⟨df.cols.map (applyDtypes m)⟩ ∧
    ∀ q ∈ m, ∃ col,
      DataFrame.getCol ⟨df.cols.map (applyDtypes m)⟩ q.1 = some col ∧
      col.dtype = castDtype q.2 := by
  refine ⟨astypeMap_ok df m hkeys, ?_⟩
  intro q hq
  obtain ⟨col, hcol, hname⟩ := mem_columns_getCol df.cols q.1 (hkeys q hq)
  refine ⟨applyDtypes m col, ?_, ?_⟩
  · rw [getCol_map_name_preserving (applyDtypes m) (applyDtypes_name m) df.cols q.1]
    simp [hcol]
  · have hl : alookup q.1 m = some q.2 := alookup_of_mem_nodup m q.1 q.2 hq hnodup
    simp [applyDtypes, hname, hl, Column.astype]

/-!
## C3: unsupported format error
-/

/-- C3: for every format tag outside the supported set {csv, parquet,
pickle} (write-side tags are lowercased first), `write_entity_data` and
`read_entity_data` fail with the error message that enumerates the
supported set, for every input state — so no table write or read is
even partially applied. -/
theorem unsupported_format_rejected (format : String)
    (hw : strLower format ∉ FORMATS) (d : EntityDescription)
    (hr : d.loading_info.type ∉ FORMATS) :
    (∀ (e : Entity) (p : Path) (kwargs : List (String × Value)) (fs : Fs),
        write_entity_data e p format kwargs fs = .error formatsError) ∧
    (∀ (p : Path) (fs : Fs), read_entity_data d p fs = .error formatsError) ∧
    formatsError = "must be one of the following formats: csv, pickle, parquet" := by
  simp only [FORMATS, List.mem_cons, List.not_mem_nil, or_false, not_or] at hw hr
  refine ⟨?_, ?_, rfl⟩
  · intro e p kwargs fs
    simp [write_entity_data, hw.1, hw.2.1, hw.2.2]
  · intro p fs
    simp [read_entity_data, hr.1, hr.2.1, hr.2.2]

/-- Witness for C3 at the concrete unsupported tag `"json"`. -/
theorem unsupported_format_rejected_witness :
    (∀ (e : Entity) (p : Path) (kwargs : List (String × Value)) (fs : Fs),
        write_entity_data e p "json" kwargs fs = .error formatsError) ∧
    (∀ (p : Path) (fs : Fs),
        read_entity_data
          { id := "e", index := "i", time_index := none, secondary_time_index := [],
            last_time_index := false, «variables» := [],
            loading_info := { location := ["data", "e.json"], type := "json",
                              params := [], dtypes := [] } } p fs =
          .error formatsError) ∧
    formatsError = "must be one of the following formats: csv, pickle, parquet" :=
  unsupported_format_rejected "json" (by decide)
    { id := "e", index := "i", time_index := none, secondary_time_index := [],
      last_time_index := false, «variables» := [],
      loading_info := { location := ["data", "e.json"], type := "json",
                        params := [], dtypes := [] } }
    (by decide)

/-!
## C4: unknown type leniency
-/

/-- C4: a variable fragment whose type tag is not registered does not
fail `from_variable_description`; the tag resolves to the default
untyped descriptor (`VARIABLE_TYPES.get(None)`), both for bare string
type fields and for object type fields, so the manifest load goes on. -/
theorem unknown_type_tag_resolves_to_default (registry : List String)
    (frag : VariableDescription) (tag : String) (hreg : tag ∉ registry) :
    (frag.type = .str tag →
      from_variable_description registry frag none = .ok (.cls .untyped, frag) ∧
      from_variable_description registry frag (some ()) =
        .ok (.inst { id := frag.id, descriptor := .untyped, kwargs := [],
                     interesting_values := frag.interesting_values }, frag)) ∧
    (∀ (rest : List (String × Value)),
      frag.type = .obj (("value", Value.vstr tag) :: rest) →
      from_variable_description registry frag none =
        .ok (.cls .untyped, { frag with type := .obj rest })) := by
  constructor
  · intro hty
    constructor <;> simp [from_variable_description, hty, resolveStr, hreg]
  · intro rest hty
    simp [from_variable_description, hty, popKey_cons_self, resolveVal, resolveStr, hreg]

/-- Witness for C4: the unregistered tag `"mystery"` against a registry
holding only `"numeric"`. -/
theorem unknown_type_tag_resolves_to_default_witness :
    ({ id := "v", type := .str "mystery", interesting_values := []
       : VariableDescription }.type = .str "mystery" →
      from_variable_description ["numeric"]
          { id := "v", type := .str "mystery", interesting_values := [] } none =
        .ok (.cls .untyped, { id := "v", type := .str "mystery", interesting_values := [] }) ∧
      from_variable_description ["numeric"]
          { id := "v", type := .str "mystery", interesting_values := [] } (some ()) =
        .ok (.inst { id := "v", descriptor := .untyped, kwargs := [],
                     interesting_values := [] },
             { id := "v", type := .str "mystery", interesting_values := [] })) ∧
    (∀ (rest : List (String × Value)),
      ({ id := "v", type := .str "mystery", interesting_values := []
         : VariableDescription }.type = .obj (("value", Value.vstr "mystery") :: rest) →
      from_variable_description ["numeric"]
          { id := "v", type := .str "mystery", interesting_values := [] } none =
        .ok (.cls .untyped,
             { id := "v", type := .obj rest, interesting_values := [] }))) :=
  unknown_type_tag_resolves_to_default ["numeric"]
    { id := "v", type := .str "mystery", interesting_values := [] } "mystery" (by decide)

/-!
## C5: type-field polymorphism
-/

/-- C5: a string type field is the tag with no construction options; an
object type field has its `value` key taken as the tag and exactly the
remaining keys passed verbatim as construction options to the
instantiated variable.  Both shapes resolve the same tag to the same
descriptor; only the object shape carries the options. -/
theorem type_field_polymorphism (registry : List String)
    (fragA fragB : VariableDescription) (tag : String)
    (opts : List (String × Value))
    (hA : fragA.type = .str tag)
    (hB : fragB.type = .obj (("value", Value.vstr tag) :: opts)) :
    from_variable_description registry fragA (some ()) =
      .ok (.inst { id := fragA.id, descriptor := resolveStr registry tag,
                   kwargs := [], interesting_values := fragA.interesting_values },
           fragA) ∧
    from_variable_description registry fragB (some ()) =
      .ok (.inst { id := fragB.id, descriptor := resolveStr registry tag,
                   kwargs := opts, interesting_values := fragB.interesting_values },
           { fragB with type := .obj opts }) := by
  constructor
  · simp [from_variable_description, hA]
  · simp [from_variable_description, hB, popKey_cons_self, resolveVal]

/-- Witness for C5: `type: "numeric"` and `type: {value: "numeric",
option: 1}` both resolve to the registered `"numeric"` descriptor, and
only the second carries `option: 1` into the live variable. -/
theorem type_field_polymorphism_witness :
    from_variable_description ["numeric"]
        { id := "a", type := .str "numeric", interesting_values := [] } (some ()) =
      .ok (.inst { id := "a", descriptor := resolveStr ["numeric"] "numeric",
                   kwargs := [], interesting_values := [] },
           { id := "a", type := .str "numeric", interesting_values := [] }) ∧
    from_variable_description ["numeric"]
        { id := "b",
          type := .obj [("value", Value.vstr "numeric"), ("option", Value.vint 1)],
          interesting_values := [] } (some ()) =
      .ok (.inst { id := "b", descriptor := resolveStr ["numeric"] "numeric",
                   kwargs := [("option", Value.vint 1)], interesting_values := [] },
           { id := "b", type := .obj [("option", Value.vint 1)],
             interesting_values := [] }) :=
  type_field_polymorphism ["numeric"]
    { id := "a", type := .str "numeric", interesting_values := [] }
    { id := "b",
      type := .obj [("value", Value.vstr "numeric"), ("option", Value.vint 1)],
      interesting_values := [] }
    "numeric" [("option", Value.vint 1)] rfl rfl

/-!
## C10: fragment mutation on deserialization
-/

/-- C10: for an object type field, `from_variable_description` pops the
`value` key out of the caller's fragment: the fragment after the call
differs from the one passed in, and a second call on the same fragment no
longer observes the original type field (it raises `KeyError`). -/
theorem from_variable_description_mutates_fragment (registry : List String)
    (frag : VariableDescription) (v : Value) (opts : List (String × Value))
    (hty : frag.type = .obj (("value", v) :: opts))
    (hone : alookup "value" opts = none) :
    from_variable_description registry frag none =
      .ok (.cls (resolveVal registry v), { frag with type := .obj opts }) ∧
    { frag with type := TypeField.obj opts } ≠ frag ∧
    from_variable_description registry { frag with type := .obj opts } none =
      .error "KeyError: value" := by
  refine ⟨?_, ?_, ?_⟩
  · simp [from_variable_description, hty, popKey_cons_self]
  · intro h
    have htype : TypeField.obj opts = frag.type := congrArg VariableDescription.type h
    rw [hty] at htype
    exact List.cons_ne_self _ _ (TypeField.obj.inj htype).symm
  · have : popKey "value" opts = none := (popKey_eq_none_iff _ _).mpr hone
    simp [from_variable_description, this]

/-- Witness for C10 at the concrete fragment
`{type: {value: "numeric", option: 1}}`. -/
theorem from_variable_description_mutates_fragment_witness :
    from_variable_description ["numeric"]
        { id := "b",
          type := .obj [("value", Value.vstr "numeric"), ("option", Value.vint 1)],
          interesting_values := [] } none =
      .ok (.cls (resolveVal ["numeric"] (Value.vstr "numeric")),
           { id := "b", type := .obj [("option", Value.vint 1)],
             interesting_values := [] }) ∧
    ({ id := "b", type := TypeField.obj [("option", Value.vint 1)],
       interesting_values := [] } : VariableDescription) ≠
      { id := "b",
        type := .obj [("value", Value.vstr "numeric"), ("option", Value.vint 1)],
        interesting_values := [] } ∧
    from_variable_description ["numeric"]
        { id := "b", type := .obj [("option", Value.vint 1)],
          interesting_values := [] } none =
      .error "KeyError: value" :=
  from_variable_description_mutates_fragment ["numeric"]
    { id := "b",
      type := .obj [("value", Value.vstr "numeric"), ("option", Value.vint 1)],
      interesting_values := [] }
    (Value.vstr "numeric") [("option", Value.vint 1)] rfl rfl

/-!
## C7: manifest read precondition and root recording
-/

/-- C7: `read_data_description` fails fast (the asserted precondition,
independent of any manifest contents) when the path does not exist; when
the path exists and holds a valid manifest it returns the parsed
description with the resolved absolute path recorded under `root`. -/
theorem read_data_description_spec (path : Path) (fs : Fs) :
    (pathExists path fs = false →
      read_data_description path fs = .error "AssertionError: path does not exist") ∧
    (∀ d, pathExists path fs = true →
      fsLookup (path ++ ["data_description.json"]) fs = some (.file (.manifest d)) →
      read_data_description path fs = .ok { d with root := some path }) := by
  constructor
  · intro h
    simp [read_data_description, h]
  · intro d h hfile
    simp [read_data_description, h, hfile]

/-- Witness for C7: a missing root fails the assertion; a root holding a
manifest is parsed and `root` is recorded. -/
theorem read_data_description_spec_witness :
    read_data_description ["root"] [] =
      .error "AssertionError: path does not exist" ∧
    read_data_description ["root"]
        [(["root", "data_description.json"],
          Node.file (.manifest { entities := [], relationships := [], root := none }))] =
      .ok { entities := [], relationships := [], root := some ["root"] } :=
  ⟨(read_data_description_spec ["root"] []).1 (by decide),
   (read_data_description_spec ["root"]
       [(["root", "data_description.json"],
         Node.file (.manifest { entities := [], relationships := [], root := none }))]).2
     { entities := [], relationships := [], root := none } (by decide) (by decide)⟩

/-!
## C8: read-side dtype re-cast fidelity
-/

/-- C8: for a supported recorded format tag, `read_entity_data` returns a
table in which every column named in the manifest's dtype map has exactly
the recorded dtype, regardless of what the format reader inferred, and
only the per-format whitelisted option subset is passed to the underlying
reader (verbatim from the recorded params). -/
theorem read_entity_data_recast_fidelity (d : EntityDescription) (p : Path)
    (fs : Fs) (stored : DataFrame)
    (hfmt : d.loading_info.type ∈ FORMATS)
    (hfile : fsLookup (p ++ d.loading_info.location) fs = some (.file (.table stored)))
    (hkeys : ∀ q ∈ d.loading_info.dtypes, q.1 ∈ stored.columns)
    (hnodup : (d.loading_info.dtypes.map Prod.fst).Nodup)
    (hcanon : ∀ q ∈ d.loading_info.dtypes, q.2 ≠ "unicode" ∧ q.2 ≠ "str") :
    (∃ r, read_entity_data d p fs = .ok r ∧
        ∀ q ∈ d.loading_info.dtypes, ∃ col, r.getCol q.1 = some col ∧ col.dtype = q.2) ∧
    readParams "csv" = ["compression", "engine", "encoding"] ∧
    readParams "parquet" = ["engine", "columns"] ∧
    readParams "pickle" = ["compression"] ∧
    (∀ (params : List String) (kwargs : List (String × Value)) (q : String × Value),
        q ∈ subsetParams params kwargs → q.1 ∈ params ∧ alookup q.1 kwargs = some q.2) := by
  refine ⟨?_, rfl, rfl, rfl, ?_⟩
  · have hcast : ∀ q ∈ d.loading_info.dtypes, castDtype q.2 = q.2 := by
      intro q hq
      have := hcanon q hq
      simp [castDtype, this.1, this.2]
    simp only [FORMATS, List.mem_cons, List.not_mem_nil, or_false] at hfmt
    rcases hfmt with h | h | h
    · -- csv
      have hk' : ∀ q ∈ d.loading_info.dtypes,
          q.1 ∈ (read_csv stored (subsetParams (readParams "csv") d.loading_info.params)).columns := by
        intro q hq
        have : (read_csv stored (subsetParams (readParams "csv") d.loading_info.params)).columns
            = stored.columns := by
          simpa [read_csv] using
            columns_map_name_preserving
              (fun col => { col with dtype := inferDtype col.values }) (fun _ => rfl)
              stored.cols
        rw [this]
        exact hkeys q hq
      obtain ⟨hok, hcols⟩ := astypeMap_recast
        (read_csv stored (subsetParams (readParams "csv") d.loading_info.params))
        d.loading_info.dtypes hk' hnodup
      have heq : read_entity_data d p fs =
          (read_csv stored (subsetParams (readParams "csv") d.loading_info.params)).astypeMap
            d.loading_info.dtypes := by
        simp only [read_entity_data]
        rw [h, hfile]
        simp
      refine ⟨_, by rw [heq, hok], ?_⟩
      intro q hq
      obtain ⟨col, hcol, hdty⟩ := hcols q hq
      exact ⟨col, hcol, by rw [hdty, hcast q hq]⟩
    · -- pickle
      have hk' : ∀ q ∈ d.loading_info.dtypes,
          q.1 ∈ (read_pickle stored (subsetParams (readParams "pickle") d.loading_info.params)).columns :=
        fun q hq => hkeys q hq
      obtain ⟨hok, hcols⟩ := astypeMap_recast
        (read_pickle stored (subsetParams (readParams "pickle") d.loading_info.params))
        d.loading_info.dtypes hk' hnodup
      have heq : read_entity_data d p fs =
          (read_pickle stored (subsetParams (readParams "pickle") d.loading_info.params)).astypeMap
            d.loading_info.dtypes := by
        simp only [read_entity_data]
        rw [h, hfile]
        simp
      refine ⟨_, by rw [heq, hok], ?_⟩
      intro q hq
      obtain ⟨col, hcol, hdty⟩ := hcols q hq
      exact ⟨col, hcol, by rw [hdty, hcast q hq]⟩
    · -- parquet
      have hk' : ∀ q ∈ d.loading_info.dtypes,
          q.1 ∈ (read_parquet stored (subsetParams (readParams "parquet") d.loading_info.params)).columns :=
        fun q hq => hkeys q hq
      obtain ⟨hok, hcols⟩ := astypeMap_recast
        (read_parquet stored (subsetParams (readParams "parquet") d.loading_info.params))
        d.loading_info.dtypes hk' hnodup
      have heq : read_entity_data d p fs =
          (read_parquet stored (subsetParams (readParams "parquet") d.loading_info.params)).astypeMap
            d.loading_info.dtypes := by
        simp only [read_entity_data]
        rw [h, hfile]
        simp
      refine ⟨_, by rw [heq, hok], ?_⟩
      intro q hq
      obtain ⟨col, hcol, hdty⟩ := hcols q hq
      exact ⟨col, hcol, by rw [hdty, hcast q hq]⟩
  · intro params kwargs q hq
    simp only [subsetParams, List.mem_filterMap] at hq
    obtain ⟨key, hkey, hmap⟩ := hq
    obtain ⟨v, hv, hq'⟩ := Option.map_eq_some'.mp hmap
    cases hq'
    exact ⟨hkey, hv⟩

/-- Witness for C8: a csv-tagged entity whose stored table was inferred
as `object` reads back re-cast to the recorded `int64`. -/
theorem read_entity_data_recast_fidelity_witness :
    (∃ r, read_entity_data
        { id := "e", index := "x", time_index := none, secondary_time_index := [],
          last_time_index := false, «variables» := [],
          loading_info := { location := ["data", "e.csv"], type := "csv",
                            params := [], dtypes := [("x", "int64")] } }
        ["root"]
        [(["root", "data", "e.csv"],
          Node.file (.table ⟨[{ name := "x", dtype := "object",
                                values := [Value.vint 1] }]⟩))] = .ok r ∧
      ∀ q ∈ [("x", "int64")], ∃ col, r.getCol q.1 = some col ∧ col.dtype = q.2) ∧
    readParams "csv" = ["compression", "engine", "encoding"] ∧
    readParams "parquet" = ["engine", "columns"] ∧
    readParams "pickle" = ["compression"] ∧
    (∀ (params : List String) (kwargs : List (String × Value)) (q : String × Value),
        q ∈ subsetParams params kwargs → q.1 ∈ params ∧ alookup q.1 kwargs = some q.2) :=
  read_entity_data_recast_fidelity
    { id := "e", index := "x", time_index := none, secondary_time_index := [],
      last_time_index := false, «variables» := [],
      loading_info := { location := ["data", "e.csv"], type := "csv",
                        params := [], dtypes := [("x", "int64")] } }
    ["root"]
    [(["root", "data", "e.csv"],
      Node.file (.table ⟨[{ name := "x", dtype := "object",
                            values := [Value.vint 1] }]⟩))]
    ⟨[{ name := "x", dtype := "object", values := [Value.vint 1] }]⟩
    (by decide) (by decide) (by decide) (by decide) (by decide)

/-!
## C9: schema-only reconstruction
-/

theorem castValues_nil (t : String) : castValues t [] = [] := by
  unfold castValues
  split <;> simp

/-- C9: with no path, `from_entity_description` builds the entity on an
empty table whose columns are exactly the fragment's variable identifiers
in order, cast to the recorded dtypes; with a path, the table is instead
whatever the codec read from disk. -/
theorem from_entity_description_table_source (registry : List String)
    (d : EntityDescription) (es : EntitySet) (fs : Fs)
    (vt : List (String × Descriptor))
    (hvt : varTypesFromFragments registry d.variables = .ok vt)
    (hkeys : ∀ q ∈ d.loading_info.dtypes,
      q.1 ∈ d.variables.map VariableDescription.id)
    (hnodup : (d.loading_info.dtypes.map Prod.fst).Nodup)
    (hcanon : ∀ q ∈ d.loading_info.dtypes, q.2 ≠ "unicode" ∧ q.2 ≠ "str") :
    (∃ df, empty_dataframe d = .ok df ∧
      df.columns = d.variables.map VariableDescription.id ∧
      (∀ col ∈ df.cols, col.values = []) ∧
      (∀ q ∈ d.loading_info.dtypes, ∃ col, df.getCol q.1 = some col ∧
        col.dtype = q.2) ∧
      from_entity_description registry d es none fs =
        .ok (es.entity_from_dataframe d.id df d.index d.time_index
              d.secondary_time_index vt)) ∧
    (∀ (p : Path) (df0 : DataFrame), read_entity_data d p fs = .ok df0 →
      from_entity_description registry d es (some p) fs =
        .ok (es.entity_from_dataframe d.id df0 d.index d.time_index
              d.secondary_time_index vt)) := by
  constructor
  · have hbase : DataFrame.columns
        ⟨(d.variables.map VariableDescription.id).map
          (fun c => { name := c, dtype := "object", values := [] })⟩ =
        d.variables.map VariableDescription.id := by
      simp [DataFrame.columns, List.map_map, Function.comp_def]
    have hkeys' : ∀ q ∈ d.loading_info.dtypes,
        q.1 ∈ DataFrame.columns
          ⟨(d.variables.map VariableDescription.id).map
            (fun c => { name := c, dtype := "object", values := [] })⟩ := by
      intro q hq
      rw [hbase]
      exact hkeys q hq
    obtain ⟨hok, hcols⟩ := astypeMap_recast
      ⟨(d.variables.map VariableDescription.id).map
        (fun c => { name := c, dtype := "object", values := [] })⟩
      d.loading_info.dtypes hkeys' hnodup
    have hdf : empty_dataframe d = .ok
        ⟨((d.variables.map VariableDescription.id).map
            (fun c => ({ name := c, dtype := "object", values := [] } : Column))).map
          (applyDtypes d.loading_info.dtypes)⟩ := by
      unfold empty_dataframe
      exact hok
    refine ⟨_, hdf, ?_, ?_, ?_, ?_⟩
    · rw [columns_map_name_preserving (applyDtypes d.loading_info.dtypes)
        (applyDtypes_name d.loading_info.dtypes)]
      exact hbase
    · intro col hcol
      simp only [List.mem_map] at hcol
      obtain ⟨c0, hc0, hc0eq⟩ := hcol
      obtain ⟨c1, _, hc1eq⟩ := hc0
      subst hc0eq
      subst hc1eq
      unfold applyDtypes
      cases alookup ({ name := c1, dtype := "object", values := [] } : Column).name
          d.loading_info.dtypes with
      | none => rfl
      | some t => simp [Column.astype, castValues_nil]
    · intro q hq
      obtain ⟨col, hcol, hdty⟩ := hcols q hq
      refine ⟨col, hcol, ?_⟩
      rw [hdty]
      have := hcanon q hq
      simp [castDtype, this.1, this.2]
    · simp [from_entity_description, hdf, hvt]
  · intro p df0 hread
    simp [from_entity_description, hread, hvt]

/-- Witness for C9 at a one-variable fragment: the schema-only table has
the single declared column, no rows, the recorded dtype, and the on-disk
branch uses the codec's result. -/
theorem from_entity_description_table_source_witness :
    (∃ df, empty_dataframe
        { id := "e", index := "x", time_index := none, secondary_time_index := [],
          last_time_index := false,
          «variables» := [{ id := "x", type := .str "numeric", interesting_values := [] }],
          loading_info := { location := [], type := "", params := [],
                            dtypes := [("x", "int64")] } } = .ok df ∧
      df.columns = List.map VariableDescription.id
        [{ id := "x", type := .str "numeric", interesting_values := [] }] ∧
      (∀ col ∈ df.cols, col.values = []) ∧
      (∀ q ∈ [("x", "int64")], ∃ col, df.getCol q.1 = some col ∧ col.dtype = q.2) ∧
      from_entity_description ["numeric"]
          { id := "e", index := "x", time_index := none, secondary_time_index := [],
            last_time_index := false,
            «variables» := [{ id := "x", type := .str "numeric", interesting_values := [] }],
            loading_info := { location := [], type := "", params := [],
                              dtypes := [("x", "int64")] } }
          { entities := [], relationships := [] } none [] =
        .ok (EntitySet.entity_from_dataframe { entities := [], relationships := [] }
              "e" df "x" none [] [("x", Descriptor.typed "numeric")])) ∧
    (∀ (p : Path) (df0 : DataFrame),
      read_entity_data
          { id := "e", index := "x", time_index := none, secondary_time_index := [],
            last_time_index := false,
            «variables» := [{ id := "x", type := .str "numeric", interesting_values := [] }],
            loading_info := { location := [], type := "", params := [],
                              dtypes := [("x", "int64")] } } p [] = .ok df0 →
      from_entity_description ["numeric"]
          { id := "e", index := "x", time_index := none, secondary_time_index := [],
            last_time_index := false,
            «variables» := [{ id := "x", type := .str "numeric", interesting_values := [] }],
            loading_info := { location := [], type := "", params := [],
                              dtypes := [("x", "int64")] } }
          { entities := [], relationships := [] } (some p) [] =
        .ok (EntitySet.entity_from_dataframe { entities := [], relationships := [] }
              "e" df0 "x" none [] [("x", Descriptor.typed "numeric")])) :=
  from_entity_description_table_source ["numeric"]
    { id := "e", index := "x", time_index := none, secondary_time_index := [],
      last_time_index := false,
      «variables» := [{ id := "x", type := .str "numeric", interesting_values := [] }],
      loading_info := { location := [], type := "", params := [],
                        dtypes := [("x", "int64")] } }
    { entities := [], relationships := [] } []
    [("x", Descriptor.typed "numeric")]
    rfl (by decide) (by decide) (by decide)

/-!
## Write-side characterization lemmas
-/

/-- The table a given (lowercased) format tag puts on disk: the parquet
branch writes the object→text coerced frame, the others the frame as-is. -/
def writtenTable (format : String) (df : DataFrame) : DataFrame :=
  if format = "parquet" then coerceObjectColumns df else df

theorem write_entity_data_ok (e : Entity) (path : Path) (format : String)
    (kwargs : List (String × Value)) (fs : Fs)
    (hfmt : strLower format ∈ FORMATS) :
    write_entity_data e path format kwargs fs = .ok
      ({ location := ["data", dataBasename e.id (strLower format) kwargs],
         type := strLower format, params := kwargs },
       writtenTable (strLower format) e.df,
       (path ++ ["data", dataBasename e.id (strLower format) kwargs],
        Node.file (.table (writtenTable (strLower format) e.df))) :: fs) := by
  simp only [FORMATS, List.mem_cons, List.not_mem_nil, or_false] at hfmt
  rcases hfmt with h | h | h <;>
    simp [write_entity_data, writtenTable, h, fsWrite]

theorem write_entity_data_ok_inv (e : Entity) (path : Path) (format : String)
    (kwargs : List (String × Value)) (fs : Fs) (wi : WrittenInfo)
    (df' : DataFrame) (fs' : Fs)
    (h : write_entity_data e path format kwargs fs = .ok (wi, df', fs')) :
    fs' = (path ++ wi.location, Node.file (.table df')) :: fs ∧
    wi.location = ["data", dataBasename e.id (strLower format) kwargs] := by
  unfold write_entity_data at h
  simp only [] at h
  split_ifs at h with h1 h2 h3
  all_goals
    simp only [fsWrite, Except.ok.injEq, Prod.mk.injEq] at h
  · obtain ⟨hwi, hdf, hfs⟩ := h
    subst hwi
    subst hdf
    subst hfs
    exact ⟨rfl, rfl⟩
  · obtain ⟨hwi, hdf, hfs⟩ := h
    subst hwi
    subst hdf
    subst hfs
    exact ⟨rfl, rfl⟩
  · obtain ⟨hwi, hdf, hfs⟩ := h
    subst hwi
    subst hdf
    subst hfs
    exact ⟨rfl, rfl⟩

theorem writeEntities_fs_structure (path : Path) (format : String)
    (kwargs : List (String × Value)) :
    ∀ (ents : List Entity) (desc : DataDescription) (fs : Fs)
      (out : DataDescription × Fs),
      writeEntities ents path format kwargs desc fs = .ok out →
      ∃ new : Fs, out.2 = new ++ fs ∧ ∀ q ∈ new, path <+: q.1 := by
  intro ents
  induction ents with
  | nil =>
      intro desc fs out h
      simp only [writeEntities, Except.ok.injEq] at h
      exact ⟨[], by simp [← h], by simp⟩
  | cons e rest ih =>
      intro desc fs out h
      simp only [writeEntities] at h
      rcases hw : write_entity_data e path format kwargs fs with err | ok3
      · rw [hw] at h
        cases h
      · rw [hw] at h
        obtain ⟨wi, df', fs1⟩ := ok3
        obtain ⟨hfs1, hloc⟩ := write_entity_data_ok_inv e path format kwargs fs wi df' fs1 hw
        obtain ⟨new, hnew, hpre⟩ := ih _ _ out h
        refine ⟨new ++ [(path ++ wi.location, Node.file (.table df'))], ?_, ?_⟩
        · rw [hnew, hfs1]
          simp
        · intro q hq
          rcases List.mem_append.mp hq with hql | hqr
          · exact hpre q hql
          · simp only [List.mem_singleton] at hqr
            subst hqr
            exact List.prefix_append path wi.location

theorem mem_rmtree_not_under (p : Path) (fs : Fs) :
    ∀ q ∈ rmtree p fs, ¬ p <+: q.1 := by
  intro q hq
  have := (List.mem_filter.mp hq).2
  simpa using this

theorem rmtree_of_not_exists (p : Path) (fs : Fs)
    (h : pathExists p fs = false) : rmtree p fs = fs := by
  unfold pathExists at h
  unfold rmtree
  apply List.filter_eq_self.mpr
  intro q hq
  have : ¬ (p <+: q.1) := by
    intro hpre
    have : fs.any (fun e => decide (p <+: e.1)) = true :=
      List.any_eq_true.mpr ⟨q, hq, decide_eq_true hpre⟩
    rw [h] at this
    cases this
  simpa using this

/-!
## C6: destructive overwrite ordering
-/

/-- C6: on a successful `write_data_description`, the resulting tree is a
freshly written set of entries under the target path (directories, table
files, manifest) prepended to the old filesystem stripped of everything
at or below the path — so no file that existed at the path before the
call survives it. -/
theorem write_data_description_destructive_overwrite (es : EntitySet) (p : Path)
    (format : String) (kwargs : List (String × Value)) (fs fs' : Fs)
    (h : write_data_description es p format kwargs fs = .ok fs') :
    ∃ fresh, fs' = fresh ++ rmtree p fs ∧
      (∀ q ∈ fresh, p <+: q.1) ∧
      (∀ q ∈ rmtree p fs, ¬ p <+: q.1) := by
  unfold write_data_description at h
  have hbase :
      (if pathExists p fs then rmtree p fs else fs) = rmtree p fs := by
    rcases hex : pathExists p fs with _ | _
    · rw [if_neg (by simp [hex])]
      exact (rmtree_of_not_exists p fs hex).symm
    · rw [if_pos (by simp [hex])]
  rw [hbase] at h
  simp only [] at h
  rcases hw : writeEntities es.entities p format kwargs
      es.to_data_description
      (mkdir (p ++ ["data"]) (mkdir p (rmtree p fs))) with err | ok2
  · rw [hw] at h
    cases h
  · rw [hw] at h
    obtain ⟨desc2, fs2⟩ := ok2
    obtain ⟨new, hnew, hpre⟩ :=
      writeEntities_fs_structure p format kwargs es.entities
        es.to_data_description (mkdir (p ++ ["data"]) (mkdir p (rmtree p fs)))
        (desc2, fs2) hw
    simp only [fsWrite, Except.ok.injEq] at h
    refine ⟨(p ++ ["data_description.json"], Node.file (.manifest desc2)) ::
      new ++ [(p ++ ["data"], Node.dir), (p, Node.dir)], ?_, ?_,
      mem_rmtree_not_under p fs⟩
    · simp only at hnew
      rw [← h, hnew]
      simp [mkdir]
    · intro q hq
      rcases List.mem_cons.mp hq with hq1 | hq2
      · subst hq1
        exact List.prefix_append p ["data_description.json"]
      · rcases List.mem_append.mp hq2 with hql | hqr
        · exact hpre q hql
        · rcases List.mem_cons.mp hqr with hq3 | hq4
          · subst hq3
            exact List.prefix_append p ["data"]
          · simp only [List.mem_singleton] at hq4
            subst hq4
            exact List.prefix_refl p

/-- Witness for C6: writing an empty collection over a root that already
holds a stale file; the result is exactly the fresh tree on top of the
stale-free remainder. -/
theorem write_data_description_destructive_overwrite_witness :
    ∃ fresh,
      [(["root", "data_description.json"],
        Node.file (.manifest { entities := [], relationships := [], root := none })),
       (["root", "data"], Node.dir), (["root"], Node.dir)] =
        fresh ++ rmtree ["root"] [(["root", "old.txt"], Node.file (.table ⟨[]⟩))] ∧
      (∀ q ∈ fresh, ["root"] <+: q.1) ∧
      (∀ q ∈ rmtree ["root"] [(["root", "old.txt"], Node.file (.table ⟨[]⟩))],
        ¬ ["root"] <+: q.1) :=
  write_data_description_destructive_overwrite
    { entities := [], relationships := [] } ["root"] "csv" []
    [(["root", "old.txt"], Node.file (.table ⟨[]⟩))]
    [(["root", "data_description.json"],
      Node.file (.manifest { entities := [], relationships := [], root := none })),
     (["root", "data"], Node.dir), (["root"], Node.dir)]
    (by rfl)

/-!
## C2: columnar coercion
-/

theorem castValues_all_vstr (t : String) (vs : List Value)
    (h : ∀ v ∈ vs, ∃ s, v = Value.vstr s) :
    ∀ v ∈ castValues t vs, ∃ s, v = Value.vstr s := by
  intro v hv
  unfold castValues at hv
  split at hv
  · obtain ⟨w, _, hw⟩ := List.mem_map.mp hv
    exact ⟨valueToString w, hw.symm⟩
  · exact h v hv

theorem castValues_unicode_all_vstr (vs : List Value) :
    ∀ v ∈ castValues "unicode" vs, ∃ s, v = Value.vstr s := by
  intro v hv
  unfold castValues at hv
  rw [if_pos (Or.inl rfl)] at hv
  obtain ⟨w, _, hw⟩ := List.mem_map.mp hv
  exact ⟨valueToString w, hw.symm⟩

/-- Counterexample for C2 as stated: a parquet write of a table with a
tuple-valued object column succeeds, but the caller's in-memory table
after the call is the string-coerced one, not the original — the
coercion is performed in place, not on a copy. -/
theorem columnar_coercion_counterexample :
    write_entity_data
        { id := "e",
          df := ⟨[{ name := "c", dtype := "object", values := [Value.vtuple [1, 2]] }]⟩,
          «variables» := [{ id := "c", descriptor := .typed "generic", kwargs := [],
                            interesting_values := [] }],
          index := "c", time_index := none, secondary_time_index := [],
          last_time_index := false }
        ["root"] "parquet" [] [] =
      .ok ({ location := ["data", "e.parquet"], type := "parquet", params := [] },
           ⟨[{ name := "c", dtype := "object", values := [Value.vstr "(1, 2)"] }]⟩,
           [(["root", "data", "e.parquet"],
             Node.file (.table
               ⟨[{ name := "c", dtype := "object",
                   values := [Value.vstr "(1, 2)"] }]⟩))]) ∧
    (⟨[{ name := "c", dtype := "object", values := [Value.vstr "(1, 2)"] }]⟩ :
        DataFrame) ≠
      ⟨[{ name := "c", dtype := "object", values := [Value.vtuple [1, 2]] }]⟩ := by
  constructor
  · rfl
  · decide

/-- C2 (amended): a parquet write of a table with generic/object columns
succeeds and the coerced columns read back as text, but the coercion is
performed in place on the caller's table: after the call the caller holds
the object→text coerced frame, not the original. -/
theorem columnar_coercion_amended (e : Entity) (p : Path)
    (kwargs : List (String × Value)) (fs : Fs) :
    write_entity_data e p "parquet" kwargs fs = .ok
      ({ location := ["data", dataBasename e.id "parquet" kwargs],
         type := "parquet", params := kwargs },
       coerceObjectColumns e.df,
       (p ++ ["data", dataBasename e.id "parquet" kwargs],
        Node.file (.table (coerceObjectColumns e.df))) :: fs) ∧
    (∀ c col0, e.df.getCol c = some col0 → col0.dtype = "object" →
      ∃ r, read_entity_data
          { to_entity_description e with
            loading_info := (to_entity_description e).loading_info.update
              { location := ["data", dataBasename e.id "parquet" kwargs],
                type := "parquet", params := kwargs } } p
          ((p ++ ["data", dataBasename e.id "parquet" kwargs],
            Node.file (.table (coerceObjectColumns e.df))) :: fs) = .ok r ∧
        ∃ col, r.getCol c = some col ∧ ∀ v ∈ col.values, ∃ s, v = Value.vstr s) := by
  have hlow : strLower "parquet" = "parquet" := by decide
  have hwrite := write_entity_data_ok e p "parquet" kwargs fs (by decide)
  rw [hlow] at hwrite
  have hwt : writtenTable "parquet" e.df = coerceObjectColumns e.df := by
    simp [writtenTable]
  rw [hwt] at hwrite
  refine ⟨hwrite, ?_⟩
  intro c col0 hcol0 hdty
  set m := (to_entity_description e).loading_info.dtypes with hm
  have hnames : ∀ col : Column,
      ((if col.dtype = "object" then col.astype "unicode" else col)).name = col.name := by
    intro col
    split <;> simp [Column.astype]
  have hstoredCols : (coerceObjectColumns e.df).columns = e.df.columns := by
    simpa [coerceObjectColumns] using
      columns_map_name_preserving
        (fun col => if col.dtype = "object" then col.astype "unicode" else col)
        hnames e.df.cols
  have hkeys : ∀ q ∈ m, q.1 ∈ (coerceObjectColumns e.df).columns := by
    intro q hq
    rw [hstoredCols]
    rw [hm] at hq
    simp only [to_entity_description, List.mem_map] at hq
    obtain ⟨col, hcolmem, hcoleq⟩ := hq
    have : col ∈ e.df.cols := List.mem_of_mem_filter hcolmem
    rw [← hcoleq]
    exact List.mem_map.mpr ⟨col, this, rfl⟩
  have hok := astypeMap_ok (coerceObjectColumns e.df) m hkeys
  have hread : read_entity_data
      { to_entity_description e with
        loading_info := (to_entity_description e).loading_info.update
          { location := ["data", dataBasename e.id "parquet" kwargs],
            type := "parquet", params := kwargs } } p
      ((p ++ ["data", dataBasename e.id "parquet" kwargs],
        Node.file (.table (coerceObjectColumns e.df))) :: fs) =
      .ok ⟨(coerceObjectColumns e.df).cols.map (applyDtypes m)⟩ := by
    simp only [read_entity_data, LoadingInfo.update]
    rw [fsLookup]
    rw [if_pos rfl]
    simp only [read_parquet]
    simpa using hok
  refine ⟨_, hread, ?_⟩
  have hget1 : (coerceObjectColumns e.df).getCol c = some (col0.astype "unicode") := by
    have := getCol_map_name_preserving
      (fun col => if col.dtype = "object" then col.astype "unicode" else col)
      hnames e.df.cols c
    unfold coerceObjectColumns
    rw [this]
    have : DataFrame.getCol ⟨e.df.cols⟩ c = some col0 := hcol0
    rw [this]
    simp [hdty]
  have hget2 : DataFrame.getCol
      ⟨(coerceObjectColumns e.df).cols.map (applyDtypes m)⟩ c =
      some (applyDtypes m (col0.astype "unicode")) := by
    rw [getCol_map_name_preserving (applyDtypes m) (applyDtypes_name m)
      (coerceObjectColumns e.df).cols c]
    have : DataFrame.getCol ⟨(coerceObjectColumns e.df).cols⟩ c =
        some (col0.astype "unicode") := hget1
    rw [this]
    rfl
  refine ⟨_, hget2, ?_⟩
  have hvstr : ∀ v ∈ (col0.astype "unicode").values, ∃ s, v = Value.vstr s := by
    simpa [Column.astype] using castValues_unicode_all_vstr col0.values
  unfold applyDtypes
  cases alookup (col0.astype "unicode").name m with
  | none => exact hvstr
  | some t =>
      simpa [Column.astype] using
        castValues_all_vstr t (col0.astype "unicode").values hvstr

/-- Witness for C2's amended theorem at the concrete tuple-valued table
from the counterexample. -/
theorem columnar_coercion_amended_witness :
    write_entity_data
        { id := "e",
          df := ⟨[{ name := "c", dtype := "object", values := [Value.vtuple [1, 2]] }]⟩,
          «variables» := [{ id := "c", descriptor := .typed "generic", kwargs := [],
                            interesting_values := [] }],
          index := "c", time_index := none, secondary_time_index := [],
          last_time_index := false }
        ["root"] "parquet" [] [] = .ok
      ({ location := ["data", dataBasename "e" "parquet" []],
         type := "parquet", params := [] },
       coerceObjectColumns
         ⟨[{ name := "c", dtype := "object", values := [Value.vtuple [1, 2]] }]⟩,
       (["root"] ++ ["data", dataBasename "e" "parquet" []],
        Node.file (.table (coerceObjectColumns
          ⟨[{ name := "c", dtype := "object", values := [Value.vtuple [1, 2]] }]⟩))) :: []) ∧
    (∀ c col0,
      DataFrame.getCol
        ⟨[{ name := "c", dtype := "object", values := [Value.vtuple [1, 2]] }]⟩ c =
        some col0 → col0.dtype = "object" →
      ∃ r, read_entity_data
          { to_entity_description
              { id := "e",
                df := ⟨[{ name := "c", dtype := "object",
                          values := [Value.vtuple [1, 2]] }]⟩,
                «variables» := [{ id := "c", descriptor := .typed "generic", kwargs := [],
                                  interesting_values := [] }],
                index := "c", time_index := none, secondary_time_index := [],
                last_time_index := false } with
            loading_info :=
              (to_entity_description
                { id := "e",
                  df := ⟨[{ name := "c", dtype := "object",
                            values := [Value.vtuple [1, 2]] }]⟩,
                  «variables» := [{ id := "c", descriptor := .typed "generic", kwargs := [],
                                    interesting_values := [] }],
                  index := "c", time_index := none, secondary_time_index := [],
                  last_time_index := false }).loading_info.update
                { location := ["data", dataBasename "e" "parquet" []],
                  type := "parquet", params := [] } } ["root"]
          ((["root"] ++ ["data", dataBasename "e" "parquet" []],
            Node.file (.table (coerceObjectColumns
              ⟨[{ name := "c", dtype := "object",
                  values := [Value.vtuple [1, 2]] }]⟩))) :: []) = .ok r ∧
        ∃ col, r.getCol c = some col ∧ ∀ v ∈ col.values, ∃ s, v = Value.vstr s) :=
  columnar_coercion_amended
    { id := "e",
      df := ⟨[{ name := "c", dtype := "object", values := [Value.vtuple [1, 2]] }]⟩,
      «variables» := [{ id := "c", descriptor := .typed "generic", kwargs := [],
                        interesting_values := [] }],
      index := "c", time_index := none, secondary_time_index := [],
      last_time_index := false }
    ["root"] [] []

/-!
## C1 infrastructure: path and lookup facts
-/

theorem string_append_right_cancel : ∀ (a b s : String), a ++ s = b ++ s → a = b := by
  intro a b s h
  obtain ⟨da⟩ := a
  obtain ⟨db⟩ := b
  obtain ⟨ds⟩ := s
  have hd : da ++ ds = db ++ ds := congrArg String.data h
  rw [List.append_cancel_right hd]

/-- The fixed filename suffix a format and option set add after the
entity id. -/
def dataSuffix (format : String) (kwargs : List (String × Value)) : String :=
  "." ++ format ++
    (match alookup "compression" kwargs with
     | some (.vstr c) => "." ++ c
     | _ => "")

theorem dataBasename_eq (id : String) (format : String)
    (kwargs : List (String × Value)) :
    dataBasename id format kwargs = id ++ dataSuffix format kwargs := by
  unfold dataBasename dataSuffix
  cases h : alookup "compression" kwargs with
  | none => simp [String.append_assoc]
  | some v => cases v <;> simp [String.append_assoc]

theorem dataBasename_injective (format : String) (kwargs : List (String × Value))
    (id1 id2 : String) (h : dataBasename id1 format kwargs = dataBasename id2 format kwargs) :
    id1 = id2 := by
  rw [dataBasename_eq, dataBasename_eq] at h
  exact string_append_right_cancel _ _ _ h

theorem fsLookup_append_some (q : Path) (l1 l2 : Fs) (n : Node)
    (h : fsLookup q l1 = some n) : fsLookup q (l1 ++ l2) = some n := by
  induction l1 with
  | nil => simp [fsLookup] at h
  | cons hd tl ih =>
      obtain ⟨qp, qn⟩ := hd
      by_cases hq : qp = q
      · simp only [fsLookup, if_pos hq] at h ⊢
        exact h
      · simp only [fsLookup, if_neg hq] at h ⊢
        exact ih h

theorem fsLookup_cons_ne (q q' : Path) (n' : Node) (l : Fs) (h : q' ≠ q) :
    fsLookup q ((q', n') :: l) = fsLookup q l := by
  simp [fsLookup, h]

theorem fsLookup_of_mem_nodup_paths : ∀ (l : Fs) (q : Path) (n : Node),
    (q, n) ∈ l → (l.map Prod.fst).Nodup → fsLookup q l = some n := by
  intro l
  induction l with
  | nil => intro q n h _; simp at h
  | cons hd tl ih =>
      intro q n hmem hnodup
      obtain ⟨qp, qn⟩ := hd
      simp only [List.map_cons, List.nodup_cons] at hnodup
      rcases List.mem_cons.mp hmem with h | h
      · injection h with h1 h2
        subst h1
        subst h2
        simp [fsLookup]
      · have hne : qp ≠ q := by
          intro hq
          exact hnodup.1 (hq ▸ List.mem_map.mpr ⟨(q, n), h, rfl⟩)
        rw [fsLookup_cons_ne q qp qn tl hne]
        exact ih q n h hnodup.2

theorem map_eq_self_of_mem {α : Type} (l : List α) (f : α → α)
    (h : ∀ x ∈ l, f x = x) : l.map f = l := by
  induction l with
  | nil => rfl
  | cons a t ih =>
      rw [List.map_cons, h a (List.mem_cons_self a t),
          ih (fun x hx => h x (List.mem_cons_of_mem a hx))]

/-!
## C1 infrastructure: write-phase characterization
-/

/-- The entity fragment as it stands in the manifest after the writer
merged in the loading info returned by the table write. -/
def postWriteFragment (format : String) (kwargs : List (String × Value))
    (e : Entity) : EntityDescription :=
  { to_entity_description e with
    loading_info := (to_entity_description e).loading_info.update
      { location := ["data", dataBasename e.id format kwargs],
        type := format, params := kwargs } }

/-- The filesystem entry a table write creates for an entity. -/
def entityFileEntry (p : Path) (format : String) (kwargs : List (String × Value))
    (e : Entity) : Path × Node :=
  (p ++ ["data", dataBasename e.id format kwargs],
   Node.file (.table (writtenTable format e.df)))

theorem updateLoadingInfo_skip (id : String) (wi : WrittenInfo) :
    ∀ (done rest : List (String × EntityDescription)),
      id ∉ done.map Prod.fst →
      updateLoadingInfo (done ++ rest) id wi = done ++ updateLoadingInfo rest id wi := by
  intro done
  induction done with
  | nil => intro rest _; simp
  | cons hd tl ih =>
      intro rest h
      obtain ⟨k, frag⟩ := hd
      simp only [List.map_cons, List.mem_cons, not_or] at h
      have hk : k ≠ id := fun hkk => h.1 hkk.symm
      simp only [List.cons_append, updateLoadingInfo, if_neg hk, List.append_eq]
      rw [ih rest h.2]

theorem updateLoadingInfo_cons_hit (id : String) (frag : EntityDescription)
    (rest : List (String × EntityDescription)) (wi : WrittenInfo) :
    updateLoadingInfo ((id, frag) :: rest) id wi =
      (id, { frag with loading_info := frag.loading_info.update wi }) :: rest := by
  simp [updateLoadingInfo]

theorem writeEntities_char (p : Path) (format : String)
    (kwargs : List (String × Value)) (hfmt : strLower format ∈ FORMATS) :
    ∀ (todo : List Entity) (done : List (String × EntityDescription))
      (rels : List RelationshipDescription) (root : Option Path) (fs : Fs),
      (∀ e ∈ todo, e.id ∉ done.map Prod.fst) →
      (todo.map Entity.id).Nodup →
      writeEntities todo p format kwargs
        ⟨done ++ todo.map (fun e => (e.id, to_entity_description e)), rels, root⟩ fs =
      .ok (⟨done ++ todo.map
              (fun e => (e.id, postWriteFragment (strLower format) kwargs e)),
            rels, root⟩,
           (todo.map (entityFileEntry p (strLower format) kwargs)).reverse ++ fs) := by
  intro todo
  induction todo with
  | nil =>
      intro done rels root fs _ _
      simp [writeEntities]
  | cons e rest ih =>
      intro done rels root fs hdisj hnodup
      simp only [List.map_cons, List.cons_append] at *
      simp only [writeEntities]
      rw [write_entity_data_ok e p format kwargs fs hfmt]
      simp only []
      have hskip : updateLoadingInfo
          (done ++ (e.id, to_entity_description e) ::
            rest.map (fun e => (e.id, to_entity_description e))) e.id
          { location := ["data", dataBasename e.id (strLower format) kwargs],
            type := strLower format, params := kwargs } =
          done ++ (e.id, postWriteFragment (strLower format) kwargs e) ::
            rest.map (fun e => (e.id, to_entity_description e)) := by
        rw [updateLoadingInfo_skip e.id _ done _
          (hdisj e (List.mem_cons_self e rest))]
        rw [updateLoadingInfo_cons_hit]
        rfl
      rw [hskip]
      simp only [List.nodup_cons] at hnodup
      have hdisj' : ∀ e' ∈ rest,
          e'.id ∉ (done ++ [(e.id, postWriteFragment (strLower format) kwargs e)]).map
            Prod.fst := by
        intro e' he'
        simp only [List.map_append, List.map_cons, List.map_nil, List.mem_append,
          List.mem_singleton, not_or]
        constructor
        · exact hdisj e' (List.mem_cons_of_mem e he')
        · intro hid
          exact hnodup.1 (hid ▸ List.mem_map.mpr ⟨e', he', rfl⟩)
      have h2 := ih (done ++ [(e.id, postWriteFragment (strLower format) kwargs e)])
        rels root ((p ++ ["data", dataBasename e.id (strLower format) kwargs],
          Node.file (.table (writtenTable (strLower format) e.df))) :: fs)
        hdisj' hnodup.2
      simp only [List.append_assoc, List.singleton_append] at h2
      rw [h2]
      simp [entityFileEntry, List.reverse_cons, List.append_assoc]

/-!
## C1 infrastructure: per-entity read-back
-/

/-- The table the read-back pipeline reconstructs for one entity: the
stored (possibly parquet-coerced) table, re-typed by the codec reader,
then re-cast to the recorded dtype map. -/
def recTable (format : String) (e : Entity) : DataFrame :=
  ⟨(if format = "csv" then read_csv (writtenTable format e.df) []
    else if format = "parquet" then read_parquet (writtenTable format e.df) []
    else read_pickle (writtenTable format e.df) []).cols.map
    (applyDtypes (to_entity_description e).loading_info.dtypes)⟩

/-- The live entity the read-back pipeline reconstructs: same identifier,
schema metadata and variable tags, table from the codec, construction
options and interesting values not restored by this code path. -/
def recEntity (format : String) (e : Entity) : Entity :=
  { id := e.id, df := recTable format e,
    «variables» := e.variables.map (fun v =>
      { id := v.id, descriptor := v.descriptor, kwargs := [],
        interesting_values := [] }),
    index := e.index, time_index := e.time_index,
    secondary_time_index := e.secondary_time_index, last_time_index := false }

theorem to_entity_description_dtypes_key_mem (e : Entity) :
    ∀ q ∈ (to_entity_description e).loading_info.dtypes, q.1 ∈ e.df.columns := by
  intro q hq
  simp only [to_entity_description, List.mem_map] at hq
  obtain ⟨col, hcolmem, hcoleq⟩ := hq
  rw [← hcoleq]
  exact List.mem_map.mpr ⟨col, List.mem_of_mem_filter hcolmem, rfl⟩

theorem to_entity_description_dtypes_nodup (e : Entity)
    (h : e.df.columns.Nodup) :
    ((to_entity_description e).loading_info.dtypes.map Prod.fst).Nodup := by
  have hsub : ((to_entity_description e).loading_info.dtypes.map Prod.fst).Sublist
      e.df.columns := by
    simp only [to_entity_description, List.map_map]
    have : (List.map (Prod.fst ∘ fun col => (col.name, col.dtype))
        (e.df.cols.filter (fun col => decide (col.name ∈
          e.variables.map Variable.id)))) =
        List.map Column.name (e.df.cols.filter (fun col => decide (col.name ∈
          e.variables.map Variable.id))) := by
      simp [Function.comp_def]
    rw [this]
    exact List.Sublist.map Column.name (List.filter_sublist e.df.cols)
  exact hsub.nodup h

theorem alookup_dtypes (e : Entity) (h : e.df.columns.Nodup) (col : Column)
    (hc : col ∈ e.df.cols) (hk : col.name ∈ e.variables.map Variable.id) :
    alookup col.name (to_entity_description e).loading_info.dtypes =
      some col.dtype := by
  apply alookup_of_mem_nodup
  · simp only [to_entity_description]
    exact List.mem_map.mpr
      ⟨col, List.mem_filter.mpr ⟨hc, by simpa using hk⟩, rfl⟩
  · exact to_entity_description_dtypes_nodup e h

theorem postWriteFragment_loading_info (format : String)
    (kwargs : List (String × Value)) (e : Entity) :
    (postWriteFragment format kwargs e).loading_info =
      { location := ["data", dataBasename e.id format kwargs], type := format,
        params := kwargs,
        dtypes := (to_entity_description e).loading_info.dtypes } := rfl

theorem read_entity_data_dispatch (d : EntityDescription) (p : Path) (fs : Fs)
    (stored : DataFrame)
    (hfmt : d.loading_info.type = "csv" ∨ d.loading_info.type = "parquet" ∨
      d.loading_info.type = "pickle")
    (hlk : fsLookup (p ++ d.loading_info.location) fs =
      some (.file (.table stored))) :
    read_entity_data d p fs =
      (if d.loading_info.type = "csv" then
        read_csv stored
          (subsetParams (readParams d.loading_info.type) d.loading_info.params)
      else if d.loading_info.type = "parquet" then
        read_parquet stored
          (subsetParams (readParams d.loading_info.type) d.loading_info.params)
      else
        read_pickle stored
          (subsetParams (readParams d.loading_info.type) d.loading_info.params)).astypeMap
        d.loading_info.dtypes := by
  simp only [read_entity_data]
  rw [if_pos hfmt]
  rw [hlk]

theorem read_postWriteFragment (format : String) (kwargs : List (String × Value))
    (e : Entity) (p : Path) (fs : Fs) (hfmt : format ∈ FORMATS)
    (hlk : fsLookup (p ++ ["data", dataBasename e.id format kwargs]) fs =
      some (.file (.table (writtenTable format e.df)))) :
    read_entity_data (postWriteFragment format kwargs e) p fs =
      .ok (recTable format e) := by
  have hkeys' : ∀ fdf : DataFrame, fdf.columns = e.df.columns →
      ∀ q ∈ (to_entity_description e).loading_info.dtypes, q.1 ∈ fdf.columns := by
    intro fdf hco q hq
    rw [hco]
    exact to_entity_description_dtypes_key_mem e q hq
  simp only [FORMATS, List.mem_cons, List.not_mem_nil, or_false] at hfmt
  have hdisp := read_entity_data_dispatch (postWriteFragment format kwargs e) p fs
    (writtenTable format e.df)
    (by rw [postWriteFragment_loading_info]; tauto)
    (by rw [postWriteFragment_loading_info]; exact hlk)
  rw [postWriteFragment_loading_info] at hdisp
  simp only at hdisp
  rcases hfmt with h | h | h
  all_goals subst h
  · -- csv: the reader re-infers dtypes, the recorded map restores them
    rw [hdisp, if_pos rfl]
    have hco : (read_csv (writtenTable "csv" e.df)
        (subsetParams (readParams "csv") kwargs)).columns = e.df.columns := by
      simp only [read_csv, writtenTable, reduceIte]
      exact columns_map_name_preserving
        (fun col => { col with dtype := inferDtype col.values })
        (fun _ => rfl) e.df.cols
    rw [astypeMap_ok _ _ (hkeys' _ hco)]
    simp [recTable, writtenTable, read_csv]
  · -- pickle
    rw [hdisp, if_neg (by decide), if_neg (by decide)]
    have hco : (read_pickle (writtenTable "pickle" e.df)
        (subsetParams (readParams "pickle") kwargs)).columns = e.df.columns := by
      simp [read_pickle, writtenTable]
    rw [astypeMap_ok _ _ (hkeys' _ hco)]
    simp [recTable, writtenTable, read_pickle]
  · -- parquet: the stored table is the coerced copy
    rw [hdisp, if_neg (by decide), if_pos rfl]
    have hco : (read_parquet (writtenTable "parquet" e.df)
        (subsetParams (readParams "parquet") kwargs)).columns = e.df.columns := by
      simp only [read_parquet, writtenTable, reduceIte]
      simpa [coerceObjectColumns] using
        columns_map_name_preserving
          (fun col => if col.dtype = "object" then col.astype "unicode" else col)
          (fun col => by
            by_cases hc : col.dtype = "object" <;> simp [hc, Column.astype])
          e.df.cols
    rw [astypeMap_ok _ _ (hkeys' _ hco)]
    simp [recTable, read_parquet]

theorem restrict_map_eq (cols : List Column) (keep : List String)
    (g : Column → Column) (hg : ∀ col, (g col).name = col.name)
    (hid : ∀ col ∈ cols, col.name ∈ keep → g col = col) :
    DataFrame.restrict ⟨cols.map g⟩ keep = DataFrame.restrict ⟨cols⟩ keep := by
  unfold DataFrame.restrict
  have hP : ((fun col => decide (col.name ∈ keep)) ∘ g) =
      fun col => decide (col.name ∈ keep) := by
    funext col
    simp [Function.comp_def, hg]
  rw [List.filter_map, hP]
  congr 1
  apply map_eq_self_of_mem
  intro col hcol
  have hm := List.mem_filter.mp hcol
  exact hid col hm.1 (by simpa using hm.2)

theorem recTable_restrict (format : String) (e : Entity) (hfmt : format ∈ FORMATS)
    (hnodupcols : e.df.columns.Nodup)
    (hdty : ∀ col ∈ e.df.cols, col.dtype ≠ "unicode" ∧ col.dtype ≠ "str")
    (hpq : format = "parquet" → ∀ col ∈ e.df.cols,
      col.name ∈ e.variables.map Variable.id → col.dtype ≠ "object") :
    (recTable format e).restrict (e.variables.map Variable.id) =
      e.df.restrict (e.variables.map Variable.id) := by
  have hfix : ∀ col ∈ e.df.cols, col.name ∈ e.variables.map Variable.id →
      applyDtypes (to_entity_description e).loading_info.dtypes
        { name := col.name, dtype := col.dtype, values := col.values } = col ∧
      ∀ t, applyDtypes (to_entity_description e).loading_info.dtypes
        { name := col.name, dtype := t, values := col.values } = col := by
    intro col hc hk
    have hl := alookup_dtypes e hnodupcols col hc hk
    have hd := hdty col hc
    constructor
    · simp [applyDtypes, hl, Column.astype, castDtype, castValues, hd.1, hd.2]
    · intro t
      simp [applyDtypes, hl, Column.astype, castDtype, castValues, hd.1, hd.2]
  simp only [FORMATS, List.mem_cons, List.not_mem_nil, or_false] at hfmt
  rcases hfmt with h | h | h
  all_goals subst h
  · -- csv
    have : recTable "csv" e =
        ⟨e.df.cols.map (fun col =>
          applyDtypes (to_entity_description e).loading_info.dtypes
            { name := col.name, dtype := inferDtype col.values,
              values := col.values })⟩ := by
      simp [recTable, writtenTable, read_csv, List.map_map, Function.comp_def]
    rw [this]
    apply restrict_map_eq
    · intro col
      exact applyDtypes_name _ _
    · intro col hc hk
      exact ((hfix col hc hk).2 (inferDtype col.values))
  · -- pickle
    have : recTable "pickle" e =
        ⟨e.df.cols.map (fun col =>
          applyDtypes (to_entity_description e).loading_info.dtypes
            { name := col.name, dtype := col.dtype, values := col.values })⟩ := by
      simp [recTable, writtenTable, read_pickle]
    rw [this]
    apply restrict_map_eq
    · intro col
      exact applyDtypes_name _ _
    · intro col hc hk
      exact (hfix col hc hk).1
  · -- parquet
    have : recTable "parquet" e =
        ⟨e.df.cols.map (fun col =>
          applyDtypes (to_entity_description e).loading_info.dtypes
            (if col.dtype = "object" then col.astype "unicode" else col))⟩ := by
      simp [recTable, writtenTable, read_parquet, coerceObjectColumns,
        List.map_map, Function.comp_def]
    rw [this]
    apply restrict_map_eq
    · intro col
      rw [applyDtypes_name]
      split <;> simp [Column.astype]
    · intro col hc hk
      rw [if_neg (hpq rfl col hc hk)]
      have := (hfix col hc hk).1
      simpa using this

/-!
## C1 infrastructure: reconstruction phase
-/

theorem from_variable_description_roundtrip (registry : List String) (v : Variable)
    (t : String) (hdesc : v.descriptor = .typed t) (hreg : t ∈ registry) :
    ∃ frag', from_variable_description registry (Variable.to_data_description v)
      none = .ok (.cls v.descriptor, frag') := by
  rcases hkw : v.kwargs with _ | ⟨k, ks⟩
  · have hty : (Variable.to_data_description v).type = .str t := by
      simp [Variable.to_data_description, hkw, hdesc]
    refine ⟨Variable.to_data_description v, ?_⟩
    simp [from_variable_description, hty, resolveStr, hreg, hdesc]
  · have hty : (Variable.to_data_description v).type =
        .obj (("value", Value.vstr t) :: k :: ks) := by
      simp [Variable.to_data_description, hkw, hdesc]
    refine ⟨{ Variable.to_data_description v with type := .obj (k :: ks) }, ?_⟩
    simp [from_variable_description, hty, popKey_cons_self, resolveVal,
      resolveStr, hreg, hdesc]

theorem varTypesFromFragments_roundtrip (registry : List String) :
    ∀ (vars : List Variable),
      (∀ v ∈ vars, ∃ t, v.descriptor = .typed t ∧ t ∈ registry) →
      varTypesFromFragments registry (vars.map Variable.to_data_description) =
        .ok (vars.map (fun v => (v.id, v.descriptor))) := by
  intro vars
  induction vars with
  | nil => intro _; simp [varTypesFromFragments]
  | cons v rest ih =>
      intro h
      obtain ⟨t, hdesc, hreg⟩ := h v (List.mem_cons_self v rest)
      obtain ⟨frag', hok⟩ :=
        from_variable_description_roundtrip registry v t hdesc hreg
      have htail := ih (fun x hx => h x (List.mem_cons_of_mem v hx))
      simp only [List.map_cons, varTypesFromFragments, hok, htail]
      rfl

theorem loadEntities_char (registry : List String) (format : String)
    (kwargs : List (String × Value)) (p : Path) (fs : Fs)
    (hfmt : format ∈ FORMATS) :
    ∀ (todo : List Entity) (acc : EntitySet),
      (∀ e ∈ todo,
        fsLookup (p ++ ["data", dataBasename e.id format kwargs]) fs =
          some (.file (.table (writtenTable format e.df))) ∧
        ∀ v ∈ e.variables, ∃ t, v.descriptor = .typed t ∧ t ∈ registry) →
      loadEntities registry
        (todo.map (fun e => (e.id, postWriteFragment format kwargs e)))
        (some p) fs acc =
      .ok { acc with entities := acc.entities ++ todo.map (recEntity format) } := by
  intro todo
  induction todo with
  | nil =>
      intro acc _
      simp [loadEntities]
  | cons e rest ih =>
      intro acc h
      obtain ⟨hlk, hvars⟩ := h e (List.mem_cons_self e rest)
      have hread := read_postWriteFragment format kwargs e p fs hfmt hlk
      simp [postWriteFragment, to_entity_description, LoadingInfo.update] at hread
      have hvt := varTypesFromFragments_roundtrip registry e.variables hvars
      have hfe : from_entity_description registry
          (postWriteFragment format kwargs e) acc (some p) fs =
          .ok { acc with entities := acc.entities ++ [recEntity format e] } := by
        simp [from_entity_description, postWriteFragment,
          to_entity_description, LoadingInfo.update, hvt, hread,
          EntitySet.entity_from_dataframe, recEntity, List.map_map,
          Function.comp_def]
      simp only [List.map_cons, loadEntities, hfe]
      rw [ih { acc with entities := acc.entities ++ [recEntity format e] }
        (fun e' he' => h e' (List.mem_cons_of_mem e he'))]
      simp [List.append_assoc]

theorem find_entity_map (format : String) (l : List Entity) (x : String) :
    (l.map (recEntity format)).find? (fun e => e.id = x) =
      (l.find? (fun e => e.id = x)).map (recEntity format) := by
  rw [List.find?_map]
  congr 1

theorem loadRelationships_roundtrip (format : String)
    (origEntities : List Entity) (accRels : List Relationship) :
    ∀ (rs : List Relationship),
      (∀ r ∈ rs,
        (∃ pe, origEntities.find? (fun e => e.id = r.parent.1) = some pe ∧
          r.parent.2 ∈ pe.variables.map Variable.id) ∧
        (∃ ce, origEntities.find? (fun e => e.id = r.child.1) = some ce ∧
          r.child.2 ∈ ce.variables.map Variable.id)) →
      loadRelationships (rs.map to_relationship_description)
        ⟨origEntities.map (recEntity format), accRels⟩ = .ok rs := by
  intro rs
  induction rs with
  | nil => intro _; simp [loadRelationships]
  | cons r rest ih =>
      intro h
      obtain ⟨⟨pe, hpe, hpv⟩, ⟨ce, hce, hcv⟩⟩ := h r (List.mem_cons_self r rest)
      obtain ⟨pv, hpvmem, hpv_id⟩ := List.mem_map.mp hpv
      obtain ⟨cv, hcvmem, hcv_id⟩ := List.mem_map.mp hcv
      have hpe_id : pe.id = r.parent.1 := by
        have := List.find?_some hpe
        simpa using this
      have hce_id : ce.id = r.child.1 := by
        have := List.find?_some hce
        simpa using this
      -- parent variable lookup succeeds on the reconstructed entity
      have hfindpv : ∃ pv', (recEntity format pe).variables.find?
          (fun v => v.id = r.parent.2) = some pv' ∧ pv'.id = r.parent.2 := by
        have hcand :
            ({ id := pv.id, descriptor := pv.descriptor, kwargs := [], interesting_values := [] } : Variable) ∈
              (recEntity format pe).variables := by
          simp only [recEntity]
          exact List.mem_map.mpr ⟨pv, hpvmem, rfl⟩
        have hsome : ((recEntity format pe).variables.find?
            (fun v => v.id = r.parent.2)).isSome := by
          rw [List.find?_isSome]
          exact ⟨_, hcand, by simpa using hpv_id⟩
        obtain ⟨pv', hpv'⟩ := Option.isSome_iff_exists.mp hsome
        exact ⟨pv', hpv', by simpa using List.find?_some hpv'⟩
      have hfindcv : ∃ cv', (recEntity format ce).variables.find?
          (fun v => v.id = r.child.2) = some cv' ∧ cv'.id = r.child.2 := by
        have hcand :
            ({ id := cv.id, descriptor := cv.descriptor, kwargs := [], interesting_values := [] } : Variable) ∈
              (recEntity format ce).variables := by
          simp only [recEntity]
          exact List.mem_map.mpr ⟨cv, hcvmem, rfl⟩
        have hsome : ((recEntity format ce).variables.find?
            (fun v => v.id = r.child.2)).isSome := by
          rw [List.find?_isSome]
          exact ⟨_, hcand, by simpa using hcv_id⟩
        obtain ⟨cv', hcv'⟩ := Option.isSome_iff_exists.mp hsome
        exact ⟨cv', hcv', by simpa using List.find?_some hcv'⟩
      obtain ⟨pv', hpv', hpv'_id⟩ := hfindpv
      obtain ⟨cv', hcv', hcv'_id⟩ := hfindcv
      have hrel : from_relationship_description (to_relationship_description r)
          ⟨origEntities.map (recEntity format), accRels⟩ = .ok r := by
        have hgp : EntitySet.getEntity
            ⟨origEntities.map (recEntity format), accRels⟩ r.parent.1 =
            some (recEntity format pe) := by
          simp only [EntitySet.getEntity, find_entity_map, hpe]
          rfl
        have hgc : EntitySet.getEntity
            ⟨origEntities.map (recEntity format), accRels⟩ r.child.1 =
            some (recEntity format ce) := by
          simp only [EntitySet.getEntity, find_entity_map, hce]
          rfl
        simp only [from_relationship_description, to_relationship_description,
          hgp, hgc, Entity.getVariable, hpv', hcv']
        have hpid : (recEntity format pe).id = pe.id := rfl
        have hcid : (recEntity format ce).id = ce.id := rfl
        rw [hpid, hcid, hpe_id, hce_id, hpv'_id, hcv'_id]
      simp only [List.map_cons, loadRelationships, hrel]
      rw [ih (fun r' hr' => h r' (List.mem_cons_of_mem r hr'))]

/-!
## C1: round-trip identity
-/

/-- C1 (amended): round-trip identity for a well-formed collection,
provided that when the columnar (parquet) format is used no column
declared as a variable has generic/object dtype — the parquet branch's
object→text coercion is exactly what breaks the unrestricted claim.
Writing the collection and reading it back through
`read_data_description`, `from_entity_description` (with the recorded
root) and `from_relationship_description` yields a collection with the
same entity identifiers in order, the same variable identifiers and
type descriptors per entity, the same relationship endpoint pairs, and
tables equal cell-for-cell and dtype-for-dtype once restricted to the
columns declared as variables. -/
theorem round_trip_amended (registry : List String) (es : EntitySet) (p : Path)
    (format : String) (kwargs : List (String × Value)) (fs : Fs)
    (hfmt : strLower format ∈ FORMATS)
    (hids : (es.entities.map Entity.id).Nodup)
    (hcols : ∀ e ∈ es.entities, e.df.columns.Nodup)
    (hdty : ∀ e ∈ es.entities, ∀ col ∈ e.df.cols,
      col.dtype ≠ "unicode" ∧ col.dtype ≠ "str")
    (hvars : ∀ e ∈ es.entities, ∀ v ∈ e.variables,
      ∃ t, v.descriptor = .typed t ∧ t ∈ registry)
    (hpq : strLower format = "parquet" → ∀ e ∈ es.entities, ∀ col ∈ e.df.cols,
      col.name ∈ e.variables.map Variable.id → col.dtype ≠ "object")
    (hrels : ∀ r ∈ es.relationships,
      (∃ pe, es.getEntity r.parent.1 = some pe ∧
        r.parent.2 ∈ pe.variables.map Variable.id) ∧
      (∃ ce, es.getEntity r.child.1 = some ce ∧
        r.child.2 ∈ ce.variables.map Variable.id)) :
    ∃ fs' d,
      write_data_description es p format kwargs fs = .ok fs' ∧
      read_data_description p fs' = .ok d ∧
      description_to_entityset registry d fs' =
        .ok { entities := es.entities.map (recEntity (strLower format)),
              relationships := es.relationships } ∧
      (es.entities.map (recEntity (strLower format))).map Entity.id =
        es.entities.map Entity.id ∧
      (∀ e ∈ es.entities,
        (recEntity (strLower format) e).variables.map Variable.id =
          e.variables.map Variable.id ∧
        (recEntity (strLower format) e).variables.map Variable.descriptor =
          e.variables.map Variable.descriptor ∧
        (recEntity (strLower format) e).df.restrict
            (e.variables.map Variable.id) =
          e.df.restrict (e.variables.map Variable.id)) := by
  -- names for the write artifacts
  have hchar := writeEntities_char p format kwargs hfmt es.entities []
    (es.relationships.map to_relationship_description) none
    (mkdir (p ++ ["data"]) (mkdir p (rmtree p fs)))
    (by intro e _; simp) hids
  simp only [List.nil_append] at hchar
  have hbase :
      (if pathExists p fs then rmtree p fs else fs) = rmtree p fs := by
    rcases hex : pathExists p fs with _ | _
    · rw [if_neg (by simp [hex])]
      exact (rmtree_of_not_exists p fs hex).symm
    · rw [if_pos (by simp [hex])]
  have hwrite : write_data_description es p format kwargs fs = .ok
      ((p ++ ["data_description.json"],
        Node.file (.manifest
          ⟨es.entities.map
              (fun e => (e.id, postWriteFragment (strLower format) kwargs e)),
            es.relationships.map to_relationship_description, none⟩)) ::
       ((es.entities.map
           (entityFileEntry p (strLower format) kwargs)).reverse ++
        mkdir (p ++ ["data"]) (mkdir p (rmtree p fs)))) := by
    unfold write_data_description
    rw [hbase]
    simp only []
    have hdesc : es.to_data_description =
        ⟨es.entities.map (fun e => (e.id, to_entity_description e)),
          es.relationships.map to_relationship_description, none⟩ := rfl
    rw [hdesc, hchar]
    rfl
  set fsOut : Fs :=
    ((p ++ ["data_description.json"],
      Node.file (.manifest
        ⟨es.entities.map
            (fun e => (e.id, postWriteFragment (strLower format) kwargs e)),
          es.relationships.map to_relationship_description, none⟩)) ::
     ((es.entities.map
         (entityFileEntry p (strLower format) kwargs)).reverse ++
      mkdir (p ++ ["data"]) (mkdir p (rmtree p fs)))) with hfsOut
  set desc2 : DataDescription :=
    ⟨es.entities.map
        (fun e => (e.id, postWriteFragment (strLower format) kwargs e)),
      es.relationships.map to_relationship_description, none⟩ with hdesc2
  -- reading the manifest back
  have hexists : pathExists p fsOut = true := by
    apply List.any_eq_true.mpr
    refine ⟨(p ++ ["data_description.json"],
      Node.file (.manifest desc2)), List.mem_cons_self _ _, ?_⟩
    exact decide_eq_true (List.prefix_append p ["data_description.json"])
  have hmanifest : fsLookup (p ++ ["data_description.json"]) fsOut =
      some (Node.file (.manifest desc2)) := by
    simp [hfsOut, fsLookup]
  have hread : read_data_description p fsOut =
      .ok { desc2 with root := some p } := by
    unfold read_data_description
    rw [if_pos (by simp [hexists]), hmanifest]
  -- per-entity file lookup in the written filesystem
  have hlookup : ∀ e ∈ es.entities,
      fsLookup (p ++ ["data", dataBasename e.id (strLower format) kwargs]) fsOut =
        some (.file (.table (writtenTable (strLower format) e.df))) := by
    intro e he
    have hne : p ++ ["data_description.json"] ≠
        p ++ ["data", dataBasename e.id (strLower format) kwargs] := by
      intro hq
      have := List.append_cancel_left hq
      simp at this
    rw [hfsOut]
    rw [fsLookup_cons_ne _ _ _ _ hne]
    apply fsLookup_append_some
    apply fsLookup_of_mem_nodup_paths
    · rw [List.mem_reverse]
      exact List.mem_map.mpr ⟨e, he, rfl⟩
    · rw [List.map_reverse, List.nodup_reverse]
      have hmm : (es.entities.map
          (entityFileEntry p (strLower format) kwargs)).map Prod.fst =
          (es.entities.map Entity.id).map
            (fun id => p ++ ["data", dataBasename id (strLower format) kwargs]) := by
        simp [entityFileEntry, List.map_map, Function.comp_def]
      rw [hmm]
      apply List.Nodup.map _ hids
      intro a b hab
      have h1 := List.append_cancel_left hab
      simp only [List.cons.injEq, and_true] at h1
      exact dataBasename_injective (strLower format) kwargs a b h1.2
  -- entity reconstruction
  have hload := loadEntities_char registry (strLower format) kwargs p fsOut hfmt
    es.entities ⟨[], []⟩
    (fun e he => ⟨hlookup e he, hvars e he⟩)
  simp only [List.nil_append] at hload
  -- relationship reconstruction
  have hrel := loadRelationships_roundtrip (strLower format) es.entities []
    es.relationships
    (by
      intro r hr
      obtain ⟨⟨pe, hpe, hpv⟩, ⟨ce, hce, hcv⟩⟩ := hrels r hr
      exact ⟨⟨pe, hpe, hpv⟩, ⟨ce, hce, hcv⟩⟩)
  have hd2e : description_to_entityset registry { desc2 with root := some p }
      fsOut = .ok { entities := es.entities.map (recEntity (strLower format)),
                    relationships := es.relationships } := by
    unfold description_to_entityset
    have he1 : ({ desc2 with root := some p } : DataDescription).entities =
        es.entities.map
          (fun e => (e.id, postWriteFragment (strLower format) kwargs e)) := rfl
    have he2 : ({ desc2 with root := some p } : DataDescription).root = some p := rfl
    have he3 : ({ desc2 with root := some p } : DataDescription).relationships =
        es.relationships.map to_relationship_description := rfl
    rw [he1, he2, he3]
    simp only [hload, hrel]
  refine ⟨fsOut, { desc2 with root := some p }, hwrite, hread, hd2e, ?_, ?_⟩
  · simp [recEntity, List.map_map, Function.comp_def]
  · intro e he
    refine ⟨?_, ?_, ?_⟩
    · simp [recEntity, List.map_map, Function.comp_def]
    · simp [recEntity, List.map_map, Function.comp_def]
    · exact recTable_restrict (strLower format) e hfmt (hcols e he)
        (hdty e he) (fun hp => hpq hp e he)

/-- Counterexample for C1 as stated: for a collection whose table holds a
tuple-valued object column, writing with the parquet format and reading
back through the claimed pipeline does not reproduce the original table
restricted to the declared variable columns — the tuple cell comes back
as its string form, because the writer coerces object columns to text
while the manifest records the pre-coercion dtypes. -/
theorem round_trip_counterexample :
    (write_data_description
        ⟨[⟨"e",
           ⟨[⟨"i", "int64", [Value.vint 0]⟩,
             ⟨"c", "object", [Value.vtuple [1, 2]]⟩]⟩,
           [⟨"i", .typed "numeric", [], []⟩, ⟨"c", .typed "numeric", [], []⟩],
           "i", none, [], false⟩],
          []⟩
        ["root"] "parquet" [] []).bind (fun fs1 =>
      (read_data_description ["root"] fs1).bind (fun d =>
        (description_to_entityset ["numeric"] d fs1).map (fun es1 =>
          es1.entities.map (fun e =>
            e.df.restrict (e.variables.map Variable.id))))) ≠
      .ok [DataFrame.restrict
            ⟨[⟨"i", "int64", [Value.vint 0]⟩,
              ⟨"c", "object", [Value.vtuple [1, 2]]⟩]⟩
            ["i", "c"]] := by
  decide

/-- Witness for C1's amended theorem: a one-entity collection with a
self-relationship, written as csv and read back. -/
theorem round_trip_amended_witness :
    ∃ fs' d,
      write_data_description
        ⟨[⟨"e",
           ⟨[⟨"i", "int64", [Value.vint 0]⟩, ⟨"c", "int64", [Value.vint 1]⟩]⟩,
           [⟨"i", .typed "numeric", [], []⟩, ⟨"c", .typed "numeric", [], []⟩],
           "i", none, [], false⟩],
          [⟨("e", "i"), ("e", "c")⟩]⟩
        ["root"] "csv" [] [] = .ok fs' ∧
      read_data_description ["root"] fs' = .ok d ∧
      description_to_entityset ["numeric"] d fs' =
        .ok { entities :=
                ([⟨"e",
                   ⟨[⟨"i", "int64", [Value.vint 0]⟩,
                     ⟨"c", "int64", [Value.vint 1]⟩]⟩,
                   [⟨"i", .typed "numeric", [], []⟩,
                    ⟨"c", .typed "numeric", [], []⟩],
                   "i", none, [], false⟩] : List Entity).map
                  (recEntity (strLower "csv")),
              relationships := [⟨("e", "i"), ("e", "c")⟩] } ∧
      (([⟨"e",
          ⟨[⟨"i", "int64", [Value.vint 0]⟩, ⟨"c", "int64", [Value.vint 1]⟩]⟩,
          [⟨"i", .typed "numeric", [], []⟩, ⟨"c", .typed "numeric", [], []⟩],
          "i", none, [], false⟩] : List Entity).map
          (recEntity (strLower "csv"))).map Entity.id =
        ([⟨"e",
           ⟨[⟨"i", "int64", [Value.vint 0]⟩, ⟨"c", "int64", [Value.vint 1]⟩]⟩,
           [⟨"i", .typed "numeric", [], []⟩, ⟨"c", .typed "numeric", [], []⟩],
           "i", none, [], false⟩] : List Entity).map Entity.id ∧
      (∀ e ∈ ([⟨"e",
          ⟨[⟨"i", "int64", [Value.vint 0]⟩, ⟨"c", "int64", [Value.vint 1]⟩]⟩,
          [⟨"i", .typed "numeric", [], []⟩, ⟨"c", .typed "numeric", [], []⟩],
          "i", none, [], false⟩] : List Entity),
        (recEntity (strLower "csv") e).variables.map Variable.id =
          e.variables.map Variable.id ∧
        (recEntity (strLower "csv") e).variables.map Variable.descriptor =
          e.variables.map Variable.descriptor ∧
        (recEntity (strLower "csv") e).df.restrict
            (e.variables.map Variable.id) =
          e.df.restrict (e.variables.map Variable.id)) :=
  round_trip_amended ["numeric"]
    ⟨[⟨"e",
       ⟨[⟨"i", "int64", [Value.vint 0]⟩, ⟨"c", "int64", [Value.vint 1]⟩]⟩,
       [⟨"i", .typed "numeric", [], []⟩, ⟨"c", .typed "numeric", [], []⟩],
       "i", none, [], false⟩],
      [⟨("e", "i"), ("e", "c")⟩]⟩
    ["root"] "csv" [] []
    (by decide) (by decide) (by decide) (by decide)
    (by
      intro e he v hv
      simp only [List.mem_singleton] at he
      subst he
      simp only [List.mem_cons, List.not_mem_nil, or_false] at hv
      rcases hv with hv | hv
      all_goals subst hv
      all_goals exact ⟨"numeric", rfl, by decide⟩)
    (by intro h; exact absurd h (by decide))
    (by
      intro r hr
      simp only [List.mem_singleton] at hr
      subst hr
      exact ⟨⟨_, rfl, by decide⟩, ⟨_, rfl, by decide⟩⟩)

end FT
